import Mathlib

/-!
Verification of the land-subdivision engine in `layout.py` (class `LayoutPlan`
and the helper `create_smooth_curve`).

Modelling conventions.

* Python floats are modelled by exact arithmetic in a linear ordered field `F`
  (instantiated at `ℚ` for executable checks and at `ℝ` where the source
  manipulates irrational quantities such as `math.cos`, `math.sqrt` or buffered
  areas).  Numeric literals such as `1e-6` and `1e-8` become the exact rationals
  `1/1000000` and `1/100000000`.
* The shapely planar-geometry kernel is external C code (not part of this
  repository's sources).  Calls into it are modelled in two ways:
  - for axis-aligned rectangles the exact result of the shapely call is
    computed directly (rectangle–rectangle intersection is exact), and
  - elsewhere the kernel is a parameter (a `GeomKernel` record), mirroring
    the call structure of the Python code; counterexample instantiations of
    the kernel are tied to true set-level geometry by explicit soundness
    hypotheses.
* Shapely `Polygon.bounds` of an axis-aligned rectangular polygon is the
  rectangle itself, and `rect.intersection(block)` for two axis-aligned
  rectangles is their (possibly empty or degenerate) rectangle intersection;
  this is used to run `_subdivide_block` exactly on rectangular blocks.
-/

namespace AutoPlan

/-- A planar point `(easting, northing)`, i.e. an `(x, y)` pair. -/
abbrev Pt (F : Type) := F × F

/-- An axis-aligned rectangle `[x0, x1] × [y0, y1]`.  Used both for shapely
`bounds` tuples `(min_x, min_y, max_x, max_y)` and for the rectangular cells
built by `_subdivide_block`. -/
structure Rect (F : Type) where
  x0 : F
  y0 : F
  x1 : F
  y1 : F
deriving DecidableEq, Repr

variable {F : Type} [LinearOrderedField F]

/-- `max_x - min_x` of the rectangle (the source's `site_width`). -/
def Rect.width (r : Rect F) : F := r.x1 - r.x0

/-- `max_y - min_y` of the rectangle (the source's `site_height`). -/
def Rect.height (r : Rect F) : F := r.y1 - r.y0

/-- Area of the rectangle (shapely `.area` of the rectangular polygon). -/
def Rect.area (r : Rect F) : F := r.width * r.height

/-- Membership in the closed rectangle. -/
def Rect.mem (r : Rect F) (p : Pt F) : Prop :=
  r.x0 ≤ p.1 ∧ p.1 ≤ r.x1 ∧ r.y0 ≤ p.2 ∧ p.2 ≤ r.y1

instance (r : Rect F) (p : Pt F) : Decidable (r.mem p) := by
  unfold Rect.mem; infer_instance

/-- Membership in the open interior of the rectangle. -/
def Rect.interiorMem (r : Rect F) (p : Pt F) : Prop :=
  r.x0 < p.1 ∧ p.1 < r.x1 ∧ r.y0 < p.2 ∧ p.2 < r.y1

/-- Two rectangles are separated when they are disjoint on the x-axis or on
the y-axis; separated rectangles have disjoint interiors. -/
def Rect.separated (r s : Rect F) : Prop :=
  r.x1 ≤ s.x0 ∨ s.x1 ≤ r.x0 ∨ r.y1 ≤ s.y0 ∨ s.y1 ≤ r.y0

instance (r s : Rect F) : Decidable (r.separated s) := by
  unfold Rect.separated; infer_instance

theorem Rect.separated_symm : Symmetric (Rect.separated (F := F)) := by
  intro r s h
  rcases h with h | h | h | h
  · exact Or.inr (Or.inl h)
  · exact Or.inl h
  · exact Or.inr (Or.inr (Or.inr h))
  · exact Or.inr (Or.inr (Or.inl h))

theorem Rect.separated_disjoint {r s : Rect F} (h : r.separated s) (p : Pt F) :
    ¬(r.interiorMem p ∧ s.interiorMem p) := by
  rintro ⟨⟨hrx0, hrx1, hry0, hry1⟩, ⟨hsx0, hsx1, hsy0, hsy1⟩⟩
  rcases h with h | h | h | h <;> linarith

/-- Exact axis-aligned rectangle intersection: the shapely result of
`rect.intersection(block)` when both geometries are axis-aligned rectangles.
The result may be empty or degenerate (a point or a segment); callers
classify it via its coordinates. -/
def rectInter (a b : Rect F) : Rect F :=
  ⟨max a.x0 b.x0, max a.y0 b.y0, min a.x1 b.x1, min a.y1 b.y1⟩

/-- The intersection result is a proper (positive-area) polygon. -/
def Rect.proper (r : Rect F) : Prop := r.x0 < r.x1 ∧ r.y0 < r.y1

instance (r : Rect F) : Decidable r.proper := by
  unfold Rect.proper; infer_instance

/-!
### `_subdivide_block` (layout.py lines 484-593)

The parameters read by `_subdivide_block`.  `plot_width`, `plot_depth` and
`remainder_strategy` are read with `getattr(self.layout_parameters, ..., default)`;
the `LayoutParameters` pydantic model (models/plan.py) does not declare those
three fields, so at run time the defaults always apply — they are nevertheless
modelled as `Option`s to mirror the `getattr` call exactly.
-/

structure SubdivParams (F : Type) where
  min_parcel_area : F
  max_parcel_area : F
  min_parcel_width : F
  plot_width : Option F
  plot_depth : Option F
  remainder_strategy : Option String
deriving Repr

/-- `target_area = (min_parcel_area + max_parcel_area) / 2.0`. -/
def SubdivParams.target_area (p : SubdivParams F) : F :=
  (p.min_parcel_area + p.max_parcel_area) / 2

/-- `getattr(self.layout_parameters, "plot_width", max(self.layout_parameters.min_parcel_width * 1.2, 0.1))`. -/
def SubdivParams.effPlotWidth (p : SubdivParams F) : F :=
  p.plot_width.getD (max (p.min_parcel_width * (12/10)) (1/10))

/-- `getattr(self.layout_parameters, "plot_depth", max(target_area / max(plot_width, 0.0001), 0.1))`. -/
def SubdivParams.effPlotDepth (p : SubdivParams F) : F :=
  p.plot_depth.getD (max (p.target_area / max p.effPlotWidth (1/10000)) (1/10))

/-- `getattr(self.layout_parameters, "remainder_strategy", "separate")`. -/
def SubdivParams.strategy (p : SubdivParams F) : String :=
  p.remainder_strategy.getD "separate"

/-- `col_widths[-1] += leftover` : add `d` to the last entry of a list. -/
def addToLast : List F → F → List F
  | [], _ => []
  | [a], d => [a + d]
  | a :: b :: rest, d => a :: addToLast (b :: rest) d

/-- `n_cols = max(1, int(math.floor(site_width / plot_width)))` (and the same
for rows). -/
def nCells [FloorRing F] (site plot : F) : ℕ :=
  max 1 (Int.toNat ⌊site / plot⌋)

/-- The column-width (resp. row-height) array of `_subdivide_block`:
`plot` is the plot size along this axis, `n` the integer cell count,
`leftover` the leftover along this axis, `other` the plot size along the other
axis, exactly as in lines 516-554 of layout.py. -/
def buildSizes (strategy : String) (plot : F) (n : ℕ) (leftover other min_area : F) :
    List F :=
  if |leftover| < 1/1000000 then List.replicate n plot
  else if strategy == "separate" then
    if min_area ≤ leftover * other then List.replicate n plot ++ [leftover]
    else addToLast (List.replicate n plot) leftover
  else if strategy == "add_to_last" then addToLast (List.replicate n plot) leftover
  else if strategy == "distribute" then
    List.replicate n (plot + leftover / (n : F))
  else List.replicate n plot

/-- One row of tiling cells: columns accumulate a running x offset. -/
def tileRowCells (x y h : F) : List F → List (Rect F)
  | [] => []
  | w :: ws => ⟨x, y, x + w, y + h⟩ :: tileRowCells (x + w) y h ws

/-- The row-major grid of cells: rows outer (accumulating y), columns inner
(accumulating x), as in lines 557-587 of layout.py. -/
def tileCells (x y : F) (colWs : List F) : List F → List (Rect F)
  | [] => []
  | h :: hs => tileRowCells x y h colWs ++ tileCells x (y + h) colWs hs

/-- `EPS = 1e-8`. -/
def EPS (F : Type) [LinearOrderedField F] : F := 1/100000000

/-- Clip one cell rectangle against a rectangular block and apply the
minimum-area filter, following lines 568-584: an empty intersection is
skipped; a proper polygon intersection is kept iff `inter.area + EPS >=
min_area`; degenerate (point/segment) intersections are ignored.  For two
axis-aligned rectangles the intersection is never a multi-polygon. -/
def clipCell (block : Rect F) (min_area : F) (cell : Rect F) : Option (Rect F) :=
  let inter := rectInter cell block
  if inter.proper then
    if min_area ≤ inter.area + EPS F then some inter else none
  else none

/-- `n_cols` of `_subdivide_block` on a rectangular block. -/
def nColsOf [FloorRing F] (p : SubdivParams F) (block : Rect F) : ℕ :=
  nCells block.width p.effPlotWidth

/-- `n_rows` of `_subdivide_block` on a rectangular block. -/
def nRowsOf [FloorRing F] (p : SubdivParams F) (block : Rect F) : ℕ :=
  nCells block.height p.effPlotDepth

/-- `leftover_width = site_width - (n_cols * plot_width)`. -/
def leftoverWidth [FloorRing F] (p : SubdivParams F) (block : Rect F) : F :=
  block.width - (nColsOf p block : F) * p.effPlotWidth

/-- `leftover_height = site_height - (n_rows * plot_depth)`. -/
def leftoverHeight [FloorRing F] (p : SubdivParams F) (block : Rect F) : F :=
  block.height - (nRowsOf p block : F) * p.effPlotDepth

/-- The column-width array built by `_subdivide_block`. -/
def colWidths [FloorRing F] (p : SubdivParams F) (block : Rect F) : List F :=
  buildSizes p.strategy p.effPlotWidth (nColsOf p block) (leftoverWidth p block)
    p.effPlotDepth p.min_parcel_area

/-- The row-height array built by `_subdivide_block`. -/
def rowHeights [FloorRing F] (p : SubdivParams F) (block : Rect F) : List F :=
  buildSizes p.strategy p.effPlotDepth (nRowsOf p block) (leftoverHeight p block)
    p.effPlotWidth p.min_parcel_area

/-- `LayoutPlan._subdivide_block`, specialised to a rectangular block (where
every shapely operation it performs is exact): build the column/row size
arrays from the remainder strategy, tile the bounding box row-major, clip each
cell to the block, filter by minimum area, and fall back to the whole block
when nothing survived but the block itself is large enough. -/
def subdivide_block [FloorRing F] (p : SubdivParams F) (block : Rect F) :
    List (Rect F) :=
  let cells := tileCells block.x0 block.y0 (colWidths p block) (rowHeights p block)
  let parcels := cells.filterMap (clipCell block p.min_parcel_area)
  if parcels.isEmpty ∧ p.min_parcel_area ≤ block.area then [block] else parcels

/-!
### Claim C1 — exact tiling of a 100×100 square block
-/

/-- The effective parameters of claim C1: `plot_width = 20`, `plot_depth = 25`,
`min_parcel_area = 100`, `remainder_strategy = "add_to_last"` (the other two
fields are irrelevant because the explicit plot sizes are present). -/
def c1Params : SubdivParams ℚ :=
  { min_parcel_area := 100, max_parcel_area := 0, min_parcel_width := 0,
    plot_width := some 20, plot_depth := some 25,
    remainder_strategy := some "add_to_last" }

/-- The 100×100 square block of claim C1. -/
def c1Block : Rect ℚ := ⟨0, 0, 100, 100⟩

/-- Grid cell in column `i`, row `j` of the expected 5×4 tiling. -/
def c1Cell (i j : ℕ) : Rect ℚ := ⟨20 * i, 25 * j, 20 * i + 20, 25 * j + 25⟩

/-- The expected row-major 5-column × 4-row grid of parcels. -/
def c1Grid : List (Rect ℚ) :=
  (List.range 4).flatMap (fun j => (List.range 5).map (fun i => c1Cell i j))

theorem c1_col_cover {x : ℚ} (h0 : 0 ≤ x) (h1 : x ≤ 100) :
    ∃ i : ℕ, i < 5 ∧ (20 * i : ℚ) ≤ x ∧ x ≤ 20 * i + 20 := by
  rcases le_or_lt x 20 with h | h
  · exact ⟨0, by norm_num, by push_cast; linarith, by push_cast; linarith⟩
  rcases le_or_lt x 40 with h2 | h2
  · exact ⟨1, by norm_num, by push_cast; linarith, by push_cast; linarith⟩
  rcases le_or_lt x 60 with h3 | h3
  · exact ⟨2, by norm_num, by push_cast; linarith, by push_cast; linarith⟩
  rcases le_or_lt x 80 with h4 | h4
  · exact ⟨3, by norm_num, by push_cast; linarith, by push_cast; linarith⟩
  · exact ⟨4, by norm_num, by push_cast; linarith, by push_cast; linarith⟩

theorem c1_row_cover {y : ℚ} (h0 : 0 ≤ y) (h1 : y ≤ 100) :
    ∃ j : ℕ, j < 4 ∧ (25 * j : ℚ) ≤ y ∧ y ≤ 25 * j + 25 := by
  rcases le_or_lt y 25 with h | h
  · exact ⟨0, by norm_num, by push_cast; linarith, by push_cast; linarith⟩
  rcases le_or_lt y 50 with h2 | h2
  · exact ⟨1, by norm_num, by push_cast; linarith, by push_cast; linarith⟩
  rcases le_or_lt y 75 with h3 | h3
  · exact ⟨2, by norm_num, by push_cast; linarith, by push_cast; linarith⟩
  · exact ⟨3, by norm_num, by push_cast; linarith, by push_cast; linarith⟩

theorem c1Cell_mem_grid {i j : ℕ} (hi : i < 5) (hj : j < 4) :
    c1Cell i j ∈ c1Grid := by
  unfold c1Grid
  rw [List.mem_flatMap]
  exact ⟨j, List.mem_range.mpr hj, List.mem_map.mpr ⟨i, List.mem_range.mpr hi, rfl⟩⟩

theorem clipCell_of_contained (block cell : Rect F) (min_area : F)
    (h1 : block.x0 ≤ cell.x0) (h2 : cell.x1 ≤ block.x1)
    (h3 : block.y0 ≤ cell.y0) (h4 : cell.y1 ≤ block.y1)
    (h5 : cell.x0 < cell.x1) (h6 : cell.y0 < cell.y1)
    (h7 : min_area ≤ cell.area + EPS F) :
    clipCell block min_area cell = some cell := by
  have hint : rectInter cell block = cell := by
    unfold rectInter
    cases cell
    simp only [Rect.mk.injEq]
    exact ⟨max_eq_left h1, max_eq_left h3, min_eq_left h2, min_eq_left h4⟩
  unfold clipCell
  rw [hint, if_pos ⟨h5, h6⟩, if_pos h7]

theorem c1_colWidths : colWidths c1Params c1Block = List.replicate 5 20 := by
  unfold colWidths buildSizes leftoverWidth nColsOf nCells c1Params c1Block
    SubdivParams.effPlotWidth SubdivParams.effPlotDepth SubdivParams.strategy Rect.width
  norm_num [Int.toNat_ofNat]
  rw [show Int.toNat 5 = 5 from rfl]
  norm_num

theorem c1_rowHeights : rowHeights c1Params c1Block = List.replicate 4 25 := by
  unfold rowHeights buildSizes leftoverHeight nRowsOf nCells c1Params c1Block
    SubdivParams.effPlotWidth SubdivParams.effPlotDepth SubdivParams.strategy Rect.height
  norm_num [Int.toNat_ofNat]
  rw [show Int.toNat 4 = 4 from rfl]
  norm_num

/-- The fully evaluated form of the expected grid. -/
theorem c1Grid_eq :
    c1Grid = [⟨0, 0, 20, 25⟩, ⟨20, 0, 40, 25⟩, ⟨40, 0, 60, 25⟩, ⟨60, 0, 80, 25⟩,
      ⟨80, 0, 100, 25⟩, ⟨0, 25, 20, 50⟩, ⟨20, 25, 40, 50⟩, ⟨40, 25, 60, 50⟩,
      ⟨60, 25, 80, 50⟩, ⟨80, 25, 100, 50⟩, ⟨0, 50, 20, 75⟩, ⟨20, 50, 40, 75⟩,
      ⟨40, 50, 60, 75⟩, ⟨60, 50, 80, 75⟩, ⟨80, 50, 100, 75⟩, ⟨0, 75, 20, 100⟩,
      ⟨20, 75, 40, 100⟩, ⟨40, 75, 60, 100⟩, ⟨60, 75, 80, 100⟩, ⟨80, 75, 100, 100⟩] := by
  rw [c1Grid, show List.range 4 = [0, 1, 2, 3] from rfl,
    show List.range 5 = [0, 1, 2, 3, 4] from rfl]
  simp only [c1Cell, List.flatMap, List.map, List.flatten, List.cons_append,
    List.nil_append, List.append_nil]
  norm_num

theorem c1_tileCells :
    tileCells (0 : ℚ) 0 (List.replicate 5 20) (List.replicate 4 25) = c1Grid := by
  rw [c1Grid, show List.range 4 = [0, 1, 2, 3] from rfl,
    show List.range 5 = [0, 1, 2, 3, 4] from rfl]
  simp only [List.replicate, tileCells, tileRowCells, c1Cell, List.flatMap, List.map,
    List.flatten, List.append_nil, List.cons_append, List.nil_append]
  norm_num

theorem c1_subdivide : subdivide_block c1Params c1Block = c1Grid := by
  unfold subdivide_block
  rw [c1_colWidths, c1_rowHeights,
    show c1Block.x0 = (0 : ℚ) from rfl, show c1Block.y0 = (0 : ℚ) from rfl, c1_tileCells]
  have hclip : List.filterMap (clipCell c1Block c1Params.min_parcel_area) c1Grid
      = c1Grid := by
    have hcong : ∀ r ∈ c1Grid, clipCell c1Block c1Params.min_parcel_area r = some r := by
      rw [c1Grid_eq]
      intro r hr
      fin_cases hr <;>
        (refine clipCell_of_contained _ _ _ ?_ ?_ ?_ ?_ ?_ ?_ ?_ <;>
          norm_num [c1Block, c1Params, Rect.area, Rect.width, Rect.height, EPS])
    rw [List.filterMap_congr hcong, List.filterMap_some]
  dsimp only
  rw [hclip, if_neg (by rw [c1Grid_eq]; simp)]

/-- Claim C1: for a block that is itself a 100×100 axis-aligned square, with
effective `plot_width = 20`, `plot_depth = 25`, `min_parcel_area = 100` and
`remainder_strategy = "add_to_last"`, `_subdivide_block` returns exactly the
row-major 5-column × 4-row grid of 20 parcels, each of area 500, whose union
is the square and whose interiors are pairwise disjoint. -/
theorem c1_exact_tiling :
    subdivide_block c1Params c1Block = c1Grid ∧
    c1Grid.length = 20 ∧
    (∀ r ∈ c1Grid, r.area = 500) ∧
    (∀ p : Pt ℚ, c1Block.mem p ↔ ∃ r ∈ c1Grid, r.mem p) ∧
    (∀ r ∈ c1Grid, ∀ s ∈ c1Grid, r ≠ s →
      ∀ p : Pt ℚ, ¬(r.interiorMem p ∧ s.interiorMem p)) := by
  refine ⟨c1_subdivide, by rw [c1Grid_eq]; rfl, ?_, ?_, ?_⟩
  · rw [c1Grid_eq]
    intro r hr
    fin_cases hr <;> norm_num [Rect.area, Rect.width, Rect.height]
  · intro p
    constructor
    · rintro ⟨hx0, hx1, hy0, hy1⟩
      obtain ⟨i, hi, hxl, hxr⟩ := c1_col_cover hx0 hx1
      obtain ⟨j, hj, hyl, hyr⟩ := c1_row_cover hy0 hy1
      exact ⟨c1Cell i j, c1Cell_mem_grid hi hj, hxl, hxr, hyl, hyr⟩
    · rintro ⟨r, hr, hm⟩
      have hsub : ∀ r ∈ c1Grid, (0 : ℚ) ≤ r.x0 ∧ r.x1 ≤ 100 ∧ (0 : ℚ) ≤ r.y0 ∧
          r.y1 ≤ 100 := by
        rw [c1Grid_eq]
        intro r hr
        fin_cases hr <;> norm_num
      obtain ⟨ha, hb, hc, hd⟩ := hsub r hr
      obtain ⟨h1, h2, h3, h4⟩ := hm
      exact ⟨ha.trans h1, h2.trans hb, hc.trans h3, h4.trans hd⟩
  · have hpair : c1Grid.Pairwise Rect.separated := by
      rw [c1Grid_eq]
      norm_num [List.pairwise_cons, Rect.separated]
    intro r hr s hs hne p
    exact Rect.separated_disjoint (hpair.forall Rect.separated_symm hr hs hne) p

/-- Witness for C1: the first parcel of the grid has area 500, obtained by
applying `c1_exact_tiling` at the concrete cell `(0, 0)`. -/
theorem c1_exact_tiling_witness : (⟨0, 0, 20, 25⟩ : Rect ℚ).area = 500 :=
  c1_exact_tiling.2.2.1 ⟨0, 0, 20, 25⟩ (by rw [c1Grid_eq]; exact List.mem_cons_self _ _)

/-!
### Claim C2 — the `separate` remainder strategy's threshold
-/

theorem one_le_nCells [FloorRing F] (site plot : F) : 1 ≤ nCells site plot :=
  le_max_left 1 _

theorem one_le_nColsOf [FloorRing F] (p : SubdivParams F) (block : Rect F) :
    1 ≤ nColsOf p block :=
  le_max_left 1 _

theorem one_le_nRowsOf [FloorRing F] (p : SubdivParams F) (block : Rect F) :
    1 ≤ nRowsOf p block :=
  le_max_left 1 _

theorem addToLast_replicate (n : ℕ) (hn : 1 ≤ n) (x d : F) :
    addToLast (List.replicate n x) d = List.replicate (n - 1) x ++ [x + d] := by
  induction n with
  | zero => omega
  | succ k ih =>
    cases k with
    | zero => rfl
    | succ m =>
      have hm : 1 ≤ m + 1 := by omega
      calc addToLast (List.replicate (m + 2) x) d
          = x :: addToLast (List.replicate (m + 1) x) d := rfl
        _ = x :: (List.replicate m x ++ [x + d]) := by rw [ih hm]; rfl
        _ = List.replicate (m + 2 - 1) x ++ [x + d] := rfl

/-- Claim C2: under the `separate` strategy, whenever the width leftover is
not within `1e-6` of zero, the column-width array is `n_cols` copies of
`plot_width` plus one extra entry equal to the leftover if
`leftover_width * plot_depth ≥ min_parcel_area`, and otherwise has exactly
`n_cols` entries with the last one widened to `plot_width + leftover_width`;
and symmetrically for the row-height array. -/
theorem c2_separate_threshold [FloorRing F] (p : SubdivParams F) (block : Rect F)
    (hstrat : p.strategy = "separate") :
    (¬ |leftoverWidth p block| < 1/1000000 →
      (p.min_parcel_area ≤ leftoverWidth p block * p.effPlotDepth →
        colWidths p block =
          List.replicate (nColsOf p block) p.effPlotWidth ++ [leftoverWidth p block]) ∧
      (¬ p.min_parcel_area ≤ leftoverWidth p block * p.effPlotDepth →
        colWidths p block =
          List.replicate (nColsOf p block - 1) p.effPlotWidth ++
            [p.effPlotWidth + leftoverWidth p block] ∧
        (colWidths p block).length = nColsOf p block)) ∧
    (¬ |leftoverHeight p block| < 1/1000000 →
      (p.min_parcel_area ≤ leftoverHeight p block * p.effPlotWidth →
        rowHeights p block =
          List.replicate (nRowsOf p block) p.effPlotDepth ++ [leftoverHeight p block]) ∧
      (¬ p.min_parcel_area ≤ leftoverHeight p block * p.effPlotWidth →
        rowHeights p block =
          List.replicate (nRowsOf p block - 1) p.effPlotDepth ++
            [p.effPlotDepth + leftoverHeight p block] ∧
        (rowHeights p block).length = nRowsOf p block)) := by
  constructor
  · intro hnz
    unfold colWidths buildSizes
    rw [hstrat]
    simp only [if_neg hnz, beq_self_eq_true, if_true]
    constructor
    · intro hth
      rw [if_pos hth]
    · intro hth
      rw [if_neg hth, addToLast_replicate (nColsOf p block) (one_le_nColsOf p block)]
      refine ⟨rfl, ?_⟩
      have h1 := one_le_nColsOf p block
      simp only [List.length_append, List.length_replicate, List.length_singleton]
      omega
  · intro hnz
    unfold rowHeights buildSizes
    rw [hstrat]
    simp only [if_neg hnz, beq_self_eq_true, if_true]
    constructor
    · intro hth
      rw [if_pos hth]
    · intro hth
      rw [if_neg hth, addToLast_replicate (nRowsOf p block) (one_le_nRowsOf p block)]
      refine ⟨rfl, ?_⟩
      have h1 := one_le_nRowsOf p block
      simp only [List.length_append, List.length_replicate, List.length_singleton]
      omega

/-- Parameters for the C2 witness: `plot_width = 20`, `plot_depth = 25`,
`min_parcel_area = 100`, default (`"separate"`) remainder strategy. -/
def c2Params : SubdivParams ℚ :=
  { min_parcel_area := 100, max_parcel_area := 0, min_parcel_width := 0,
    plot_width := some 20, plot_depth := some 25, remainder_strategy := none }

theorem c2_witness_nCols : nColsOf c2Params ⟨0, 0, 105, 55⟩ = 5 := by
  unfold nColsOf nCells c2Params SubdivParams.effPlotWidth Rect.width
  norm_num
  rfl

theorem c2_witness_leftover : leftoverWidth c2Params ⟨0, 0, 105, 55⟩ = 5 := by
  unfold leftoverWidth
  rw [c2_witness_nCols]
  unfold c2Params SubdivParams.effPlotWidth Rect.width
  norm_num

/-- Witness for C2 on the block `[0,105] × [0,55]`: width leftover 5 passes
the threshold (`5 * 25 = 125 ≥ 100`), giving an extra column of width 5. -/
theorem c2_separate_threshold_witness :
    colWidths c2Params ⟨0, 0, 105, 55⟩ = [20, 20, 20, 20, 20, 5] := by
  have h := ((c2_separate_threshold c2Params ⟨0, 0, 105, 55⟩ rfl).1
    (by rw [c2_witness_leftover]; norm_num)).1
    (by rw [c2_witness_leftover]; unfold c2Params SubdivParams.effPlotDepth; norm_num)
  rw [h, c2_witness_nCols, c2_witness_leftover]
  unfold c2Params SubdivParams.effPlotWidth
  simp [List.replicate]

/-!
### `create_smooth_curve` (layout.py lines 25-50) — claim C10
-/

/-- `np.linspace(a, b, n)`: `n` evenly spaced samples from `a` to `b`,
endpoints included (`[]` for `n = 0`, `[a]` for `n = 1`). -/
def linspace (a b : F) (n : ℕ) : List F :=
  if n = 0 then []
  else if n = 1 then [a]
  else (List.range n).map (fun i => a + (b - a) * i / ((n : F) - 1))

/-- One Catmull-Rom sample: the spline formula of lines 36-46. -/
def catmullPoint (p0 p1 p2 p3 : Pt F) (t : F) : Pt F :=
  ((1/2) * (2 * p1.1 + (-p0.1 + p2.1) * t + (2 * p0.1 - 5 * p1.1 + 4 * p2.1 - p3.1) * t^2
      + (-p0.1 + 3 * p1.1 - 3 * p2.1 + p3.1) * t^3),
   (1/2) * (2 * p1.2 + (-p0.2 + p2.2) * t + (2 * p0.2 - 5 * p1.2 + 4 * p2.2 - p3.2) * t^2
      + (-p0.2 + 3 * p1.2 - 3 * p2.2 + p3.2) * t^3))

/-- `create_smooth_curve(control_points, num_points)`: returns the control
points unchanged when fewer than 4 are given; otherwise samples a Catmull-Rom
segment for every window of 4 consecutive control points, with
`num_points // (len(control_points) - 3)` parameters from `np.linspace(0, 1, ·)`
per window.  Out-of-range list access cannot occur (`i + 3 ≤ len - 1`); the
`getD` default is never used. -/
def create_smooth_curve (control_points : List (Pt F)) (num_points : ℕ) : List (Pt F) :=
  if control_points.length < 4 then control_points
  else
    (List.range (control_points.length - 3)).flatMap (fun i =>
      (linspace 0 1 (num_points / (control_points.length - 3))).map
        (catmullPoint (control_points.getD i (0, 0)) (control_points.getD (i+1) (0, 0))
          (control_points.getD (i+2) (0, 0)) (control_points.getD (i+3) (0, 0))))

/-- The control points of the "Boulevard" connector in
`_generate_mixed_roads` (lines 265-269): corner, center, opposite corner of
the boundary's bounding box. -/
def boulevardControlPoints (b : Rect F) : List (Pt F) :=
  [(b.x0, b.y0), ((b.x0 + b.x1) / 2, (b.y0 + b.y1) / 2), (b.x1, b.y1)]

/-- The polyline from which the Boulevard's road line is built
(line 271: `create_smooth_curve(control_points, 30)`). -/
def boulevardLine (b : Rect F) : List (Pt F) :=
  create_smooth_curve (boulevardControlPoints b) 30

/-- Claim C10: `create_smooth_curve` is the identity on every control-point
list with fewer than 4 points, for every `num_points`; consequently the mixed
strategy's Boulevard polyline is exactly its 3 control points
corner–center–corner, with no Catmull-Rom interpolation applied. -/
theorem c10_short_curve_identity :
    (∀ (cps : List (Pt F)) (n : ℕ), cps.length < 4 → create_smooth_curve cps n = cps) ∧
    (∀ b : Rect F, boulevardLine b = boulevardControlPoints b) := by
  constructor
  · intro cps n h
    unfold create_smooth_curve
    rw [if_pos h]
  · intro b
    unfold boulevardLine create_smooth_curve
    rw [if_pos (by rw [boulevardControlPoints]; norm_num)]

/-- Witness for C10 at a concrete 3-point polyline. -/
theorem c10_short_curve_identity_witness :
    create_smooth_curve [((0 : ℚ), (0 : ℚ)), (5, 5), (10, 10)] 30
      = [((0 : ℚ), (0 : ℚ)), (5, 5), (10, 10)] :=
  (c10_short_curve_identity).1 [((0 : ℚ), (0 : ℚ)), (5, 5), (10, 10)] 30 (by norm_num)

/-!
### `_find_street_frontage` (layout.py lines 605-637) — claim C3

`_roads_union` is declared at line 54 with default `None` and is never
assigned anywhere in the class (the local variable `roads_union` of
`_generate_blocks` at line 316 is not stored), so at every call the guard
`if self._roads_union is not None` is false and the fallback executes.  The
roads union is modelled abstractly, by the boolean test
`edge.buffer(1e-6).intersects(roads_union)` it is used for; the edge length
function is a parameter so that the scan is field-generic (at `ℝ` it is
`Real.sqrt` of the sum of squared coordinate differences).
-/

/-- Consecutive coordinate pairs of a closed exterior ring
(`for i in range(len(coords) - 1): coords[i], coords[i+1]`). -/
def ringEdges (coords : List (Pt F)) : List (Pt F × Pt F) :=
  coords.zip coords.tail

/-- The scan of lines 614-626: track the longest road-touching edge,
starting from `max_len = 0.0` and `frontage_coords = None`; an edge is
recorded only when its length strictly exceeds the current maximum. -/
def frontageScan (len : Pt F × Pt F → F) (touches : Pt F × Pt F → Bool) :
    List (Pt F × Pt F) → F → Option (List (Pt F)) → Option (List (Pt F))
  | [], _, best => best
  | e :: rest, maxLen, best =>
    if touches e ∧ maxLen < len e then
      frontageScan len touches rest (len e) (some [e.1, e.2])
    else frontageScan len touches rest maxLen best

/-- `min(c[1] for c in coords)`; the empty case cannot occur for a polygon
exterior ring (modelled as 0). -/
def minNorthing (coords : List (Pt F)) : F :=
  match coords.map Prod.snd with
  | [] => 0
  | y :: ys => ys.foldl min y

/-- The fallback of lines 632-635: all ring coordinates whose northing is
within `0.1` of the minimum northing (note: over the closed ring, so the
duplicated closing coordinate is included when it qualifies). -/
def frontageFallback (coords : List (Pt F)) : List (Pt F) :=
  coords.filter (fun c => |c.2 - minNorthing coords| < 1/10)

/-- `_find_street_frontage`: `roadsUnion` models `self._roads_union` (`none`
= `None`), `touches` models `fun e => e.buffer(1e-6).intersects(u)` for the
union `u` it carries, and `coords` is the closed exterior ring of the plot. -/
def find_street_frontage (len : Pt F × Pt F → F)
    (roadsUnion : Option (Pt F × Pt F → Bool)) (coords : List (Pt F)) : List (Pt F) :=
  match roadsUnion with
  | some touches =>
    match frontageScan len touches (ringEdges coords) 0 none with
    | some fc => fc
    | none => frontageFallback coords
  | none => frontageFallback coords

/-- Claim C3 (code bug): because `_roads_union` is never assigned, every call
runs with `roadsUnion = none` and the frontage is always the min-northing
fallback, never the longest road-adjacent edge.  Concretely, for the plot
`(0,0)-(20,0)-(20,25)-(0,25)` whose bottom edge does touch a road (`touches`
answers true for it), the claimed output would be the edge's two endpoints
`[(0,0), (20,0)]`, but the code returns the fallback vertex set
`[(0,0), (20,0), (0,0)]` (closing coordinate included). -/
theorem c3_frontage_always_fallback :
    (∀ (len : Pt ℚ × Pt ℚ → ℚ) (coords : List (Pt ℚ)),
      find_street_frontage len none coords = frontageFallback coords) ∧
    find_street_frontage (fun _ => 0) none
        [((0 : ℚ), (0 : ℚ)), (20, 0), (20, 25), (0, 25), (0, 0)]
      = [(0, 0), (20, 0), (0, 0)] ∧
    find_street_frontage (fun _ => 0) none
        [((0 : ℚ), (0 : ℚ)), (20, 0), (20, 25), (0, 25), (0, 0)]
      ≠ [(0, 0), (20, 0)] := by
  refine ⟨fun len coords => rfl, ?_, ?_⟩
  · unfold find_street_frontage frontageFallback minNorthing
    norm_num [List.filter]
  · unfold find_street_frontage frontageFallback minNorthing
    norm_num [List.filter]

/-!
### `LayoutPlan.__init__` validation (layout.py lines 56-75) — claim C7

The constructor performs, in order: the plan-type check (line 58), the
bounding-box computation (line 63, which raises `min() arg is an empty
sequence` when there are no coordinates at all), and the shapely
`Polygon(...)` construction (line 69, which raises when the ring, after
closing, has fewer than 4 coordinates).  Nothing validates self-intersection
or positivity of any width/area parameter, and `LayoutParameters`
(models/plan.py) declares no constraints on its float fields.  Road
generation happens only later, inside `draw()` (line 991).
-/

/-- The `LayoutParameters` fields relevant to validation and road generation
(models/plan.py lines 88-119); all are plain unconstrained floats/strings. -/
structure LayoutParameters (F : Type) where
  main_road_width : F
  secondary_road_width : F
  access_road_width : F
  min_parcel_area : F
  max_parcel_area : F
  min_parcel_width : F
  subdivision_type : String
  include_green_spaces : Bool
  green_space_percentage : F
  front_setback : F
  max_block_length : F
  max_block_width : F

/-- Number of coordinates of the closed ring shapely builds from the input
(the first coordinate is appended again unless it already equals the last). -/
def ringLength (coords : List (Pt ℚ)) : ℕ :=
  if coords.head? = coords.getLast? then coords.length else coords.length + 1

/-- The complete set of constructor-time failure conditions of
`LayoutPlan.__init__` for a layout plan whose plan-level `coordinates` field
is `None` (the layout case): wrong plan type; no boundary coordinates
(`min` of an empty sequence in `get_bounding_box`); or a closed ring with
fewer than 4 coordinates (shapely `Polygon`).  The parameters are accepted
unexamined. -/
def layoutInitCheck (ptype : String) (coords : List (Pt ℚ))
    (_params : LayoutParameters ℚ) : Except String Unit :=
  if ptype ≠ "layout" then .error "LayoutPlan must have type PlanType.LAYOUT"
  else if coords.isEmpty then .error "min() arg is an empty sequence"
  else if ringLength coords < 4 then .error "A linearring requires at least 4 coordinates"
  else .ok ()

/-- A point lies on the closed segment between `p` and `q`. -/
def onSeg (p q x : Pt ℚ) : Prop :=
  ∃ t : ℚ, 0 ≤ t ∧ t ≤ 1 ∧
    x = (p.1 + t * (q.1 - p.1), p.2 + t * (q.2 - p.2))

/-- A coordinate ring is self-intersecting when two non-adjacent edges of its
closed ring share a point. -/
def SelfIntersecting (coords : List (Pt ℚ)) : Prop :=
  ∃ i j : ℕ, ∃ x : Pt ℚ,
    i < j ∧ j + 1 < ringLength coords ∧ j ≠ i + 1 ∧ ¬(i = 0 ∧ j + 2 = ringLength coords) ∧
    (∃ e1 ∈ (ringEdges (coords ++ [coords.headI])).get? i,
     ∃ e2 ∈ (ringEdges (coords ++ [coords.headI])).get? j,
      onSeg e1.1 e1.2 x ∧ onSeg e2.1 e2.2 x)

/-- The bow-tie quadrilateral `(0,1) (10,11) (10,1) (0,11)`: its first and
third edges cross at `(5,6)`. -/
def bowtie : List (Pt ℚ) := [(0, 1), (10, 11), (10, 1), (0, 11)]

/-- Parameters with a non-positive road width. -/
def badParams : LayoutParameters ℚ :=
  { main_road_width := -15, secondary_road_width := 12, access_road_width := 9,
    min_parcel_area := 450, max_parcel_area := 1000, min_parcel_width := 15,
    subdivision_type := "grid", include_green_spaces := true,
    green_space_percentage := 10, front_setback := 6,
    max_block_length := 200, max_block_width := 100 }

/-- Counterexample to claim C7: the bow-tie boundary is self-intersecting and
`badParams` has a non-positive width, yet the constructor-time validation
succeeds — no configuration error is raised before road generation. -/
theorem c7_counterexample :
    SelfIntersecting bowtie ∧ badParams.main_road_width ≤ 0 ∧
    layoutInitCheck "layout" bowtie badParams = .ok () := by
  refine ⟨⟨0, 2, (5, 6), ?_, ?_, ?_, ?_, ?_⟩, ?_, ?_⟩
  · norm_num
  · norm_num [ringLength, bowtie, Prod.mk.injEq]
  · norm_num
  · norm_num [ringLength, bowtie, Prod.mk.injEq]
  · refine ⟨((0, 1), (10, 11)), ?_, ((10, 1), (0, 11)), ?_, ?_, ?_⟩
    · norm_num [ringEdges, bowtie, List.zip]
    · norm_num [ringEdges, bowtie, List.zip]
    · exact ⟨1/2, by norm_num, by norm_num, by norm_num⟩
    · exact ⟨1/2, by norm_num, by norm_num, by norm_num⟩
  · norm_num [badParams]
  · norm_num [layoutInitCheck, ringLength, bowtie, Prod.mk.injEq]

/-- Claim C7, amended: the constructor errors exactly when the plan type is
not layout, the coordinate list is empty, or the closed boundary ring has
fewer than 4 coordinates; the parameters (including non-positive widths and
areas) and self-intersection are never examined, so for any other input no
error is raised before road generation. -/
theorem c7_amended_validation (ptype : String) (coords : List (Pt ℚ))
    (params : LayoutParameters ℚ) :
    layoutInitCheck ptype coords params = .ok () ↔
      ptype = "layout" ∧ ¬coords.isEmpty ∧ 4 ≤ ringLength coords := by
  unfold layoutInitCheck
  split_ifs with h1 h2 h3
  · simp only [reduceCtorEq, false_iff]
    rintro ⟨h, -, -⟩
    exact h1 (by simp [h])
  · simp only [reduceCtorEq, false_iff]
    rintro ⟨-, h, -⟩
    exact h h2
  · simp only [reduceCtorEq, false_iff]
    rintro ⟨-, -, h⟩
    omega
  · simp only [true_iff]
    refine ⟨by simpa using h1, h2, by omega⟩

/-!
### The geometry kernel and the road generators (layout.py lines 102-327)

The road generators, block extractor, green-space allocator and parcel
assembler call shapely for line/polygon intersections, buffering, areas,
centroids and differences.  Shapely is an external C library, so those calls
are modelled by a record of functions (`GeomKernel`), mirroring exactly the
call-and-branch structure of the Python code; `math.sqrt` and `math.cos` /
`math.sin` of the eight radial angles are likewise kernel fields.  Concrete
instantiations (an exact axis-aligned-rectangle kernel, and the sound
classical kernel used for the radial counterexample) appear below.
-/

/-- Classification of a `linestring.intersection(polygon)` result as
inspected by the generators: `is_empty`, `geom_type == 'LineString'` (with
its coords), `geom_type == 'MultiLineString'` (with the parts' coords), or
any other geometry type. -/
inductive LineClip (F : Type) where
  | empty
  | line (coords : List (Pt F))
  | multi (parts : List (List (Pt F)))
  | other
deriving DecidableEq

/-- Classification of a `rect.intersection(block)` result as inspected by
`_subdivide_block`: empty, a polygon, a multi-polygon, or a degenerate
point/line result. -/
inductive RectClip (P : Type) where
  | empty
  | poly (q : P)
  | multi (qs : List P)
  | degenerate
deriving DecidableEq

/-- The shapely (plus `math`) operations invoked by the pipeline.  `P` is the
type of shapely polygons. -/
structure GeomKernel (F : Type) (P : Type) where
  /-- `poly.bounds` as `(min_x, min_y, max_x, max_y)`. -/
  bounds : P → Rect F
  /-- `poly.centroid`. -/
  centroid : P → Pt F
  /-- `poly.area`. -/
  area : P → F
  /-- shapely `__eq__`, used by `self._blocks.index(block)`. -/
  beq : P → P → Bool
  /-- `LineString(pts).intersection(poly)`, classified. -/
  clipLine : List (Pt F) → P → LineClip F
  /-- `Point(c).buffer(r).boundary.intersection(poly)`, classified. -/
  ringClip : Pt F → F → P → LineClip F
  /-- `boundary.difference(unary_union([buffer(centerline, w/2) ...]))`
  decomposed into its polygonal components (`_generate_blocks`). -/
  blocksOf : P → List (List (Pt F) × F) → List P
  /-- `Point(c).buffer(r).intersection(block)`; `none` iff empty. -/
  clipDisc : Pt F → F → P → Option P
  /-- `block.difference(green)`. -/
  diff : P → P → P
  /-- `cell_rect.intersection(block)`, classified. -/
  clipRect : Rect F → P → RectClip P
  /-- `list(poly.exterior.coords)` (closed ring). -/
  exteriorRing : P → List (Pt F)
  /-- `poly.buffer(-d)`: the closed exterior ring of the result when it is a
  single non-empty polygon, else `none` (`_calculate_buildable_area`). -/
  shrink : P → F → Option (List (Pt F))
  /-- `math.sqrt`. -/
  sqrtA : F → F
  /-- `(math.cos(i * 45° in radians), math.sin(i * 45° in radians))` for the
  eight radial directions. -/
  dirs : ℕ → Pt F

inductive RoadType where
  | main
  | secondary
  | access
deriving DecidableEq

/-- One entry of `self._roads`. -/
structure Road (F : Type) where
  rtype : RoadType
  centerline : List (Pt F)
  width : F
  name : String
deriving DecidableEq

/-- `f'Street {len(self._roads) + 1}'`. -/
def streetName (n : ℕ) : String := "Street " ++ toString (n + 1)

/-- `f'Avenue {chr(65 + len(self._roads) % 26)}'`. -/
def avenueName (n : ℕ) : String :=
  "Avenue " ++ (Char.ofNat (65 + n % 26)).toString

/-- `f'Radial {i + 1}'`. -/
def radialName (i : ℕ) : String := "Radial " ++ toString (i + 1)

/-- `f'Ring Road {i}'`. -/
def ringName (i : ℕ) : String := "Ring Road " ++ toString i

/-- `f'Ring Road {i}-{chr(65 + j)}'`. -/
def ringPartName (i j : ℕ) : String :=
  "Ring Road " ++ toString i ++ "-" ++ (Char.ofNat (65 + j)).toString

/-- Append the segments produced by one clipped scan line, naming each from
the length of the accumulated roads list at its append (grid loops,
lines 117-134 and 143-160): a `LineString` appends one segment, a
`MultiLineString` appends one per part, anything else appends nothing. -/
def appendRoads (acc : List (Road F)) (ty : RoadType) (w : F) (nameOf : ℕ → String)
    (clip : LineClip F) : List (Road F) :=
  match clip with
  | .empty => acc
  | .line cs => acc ++ [⟨ty, cs, w, nameOf acc.length⟩]
  | .multi parts => parts.foldl (fun a cs => a ++ [⟨ty, cs, w, nameOf a.length⟩]) acc
  | .other => acc

/-- Number of iterations of `y = lo + sp; while y < hi - sp: ...; y += sp`
(for positive `sp`; the source loops forever for `sp ≤ 0`, modelled as 0). -/
def scanCount [FloorRing F] (lo hi sp : F) : ℕ :=
  if 0 < sp then (⌈(hi - sp - lo) / sp⌉ - 1).toNat else 0

/-- The scan positions `lo + sp, lo + 2·sp, …` visited by the while loop. -/
def scanPositions [FloorRing F] (lo hi sp : F) : List F :=
  (List.range (scanCount lo hi sp)).map (fun k => lo + ((k : F) + 1) * sp)

/-- The horizontal ("main") phase of `_generate_grid_roads`: scan lines at
`y` spacing `max_block_width + secondary_road_width`, each extended 10 units
beyond the bounding box and clipped to the boundary. -/
def gridMainsK [FloorRing F] {P : Type} (K : GeomKernel F P) (p : LayoutParameters F)
    (boundary : P) (roads0 : List (Road F)) : List (Road F) :=
  (scanPositions (K.bounds boundary).y0 (K.bounds boundary).y1
      (p.max_block_width + p.secondary_road_width)).foldl
    (fun acc y => appendRoads acc .main p.main_road_width streetName
      (K.clipLine [((K.bounds boundary).x0 - 10, y), ((K.bounds boundary).x1 + 10, y)]
        boundary)) roads0

/-- `_generate_grid_roads`: the horizontal main phase followed by the
vertical ("secondary") phase with spacing `max_block_length + main_road_width`. -/
def gridRoadsK [FloorRing F] {P : Type} (K : GeomKernel F P) (p : LayoutParameters F)
    (boundary : P) (roads0 : List (Road F)) : List (Road F) :=
  (scanPositions (K.bounds boundary).x0 (K.bounds boundary).x1
      (p.max_block_length + p.main_road_width)).foldl
    (fun acc x => appendRoads acc .secondary p.secondary_road_width avenueName
      (K.clipLine [(x, (K.bounds boundary).y0 - 10), (x, (K.bounds boundary).y1 + 10)]
        boundary))
    (gridMainsK K p boundary roads0)

/-- The ray of radial direction `i`: from the centroid to the point 1000
units away along `(cos(i·45°), sin(i·45°))` (lines 171-177). -/
def radialRay {P : Type} (K : GeomKernel F P) (boundary : P) (i : ℕ) : List (Pt F) :=
  [K.centroid boundary,
    ((K.centroid boundary).1 + (K.dirs i).1 * 1000,
     (K.centroid boundary).2 + (K.dirs i).2 * 1000)]

/-- One iteration of the radial loop: only a single `LineString` result is
appended (empty and multi-part results are dropped). -/
def radialStep {P : Type} (K : GeomKernel F P) (p : LayoutParameters F) (boundary : P)
    (acc : List (Road F)) (i : ℕ) : List (Road F) :=
  match K.clipLine (radialRay K boundary i) boundary with
  | .line cs => acc ++ [⟨.main, cs, p.main_road_width, radialName i⟩]
  | _ => acc

/-- The radial phase of `_generate_radial_roads` (lines 168-187): a fixed
count of 8 ray attempts. -/
def radialPhaseK {P : Type} (K : GeomKernel F P) (p : LayoutParameters F)
    (boundary : P) (roads0 : List (Road F)) : List (Road F) :=
  (List.range 8).foldl (radialStep K p boundary) roads0

/-- One iteration of the ring loop (ring index `i+1` for `i ∈ range 3`):
radius `(i+1) · max_radius / 4` with `max_radius` half the smaller
bounding-box extent; a `LineString` appends one named segment, a
`MultiLineString` one per part with letter suffixes. -/
def ringStep {P : Type} (K : GeomKernel F P) (p : LayoutParameters F) (boundary : P)
    (acc : List (Road F)) (i : ℕ) : List (Road F) :=
  match K.ringClip (K.centroid boundary)
      (((i : F) + 1) * (min ((K.bounds boundary).x1 - (K.bounds boundary).x0)
          ((K.bounds boundary).y1 - (K.bounds boundary).y0) / 2) / 4) boundary with
  | .line cs => acc ++ [⟨.secondary, cs, p.secondary_road_width, ringName (i + 1)⟩]
  | .multi parts =>
      (parts.enum).foldl (fun a jcs =>
        a ++ [⟨.secondary, jcs.2, p.secondary_road_width, ringPartName (i + 1) jcs.1⟩]) acc
  | _ => acc

/-- The ring phase of `_generate_radial_roads` (lines 189-217): a fixed count
of 3 circle attempts. -/
def ringPhaseK {P : Type} (K : GeomKernel F P) (p : LayoutParameters F)
    (boundary : P) (roads0 : List (Road F)) : List (Road F) :=
  (List.range 3).foldl (ringStep K p boundary) roads0

/-- `_generate_radial_roads`. -/
def radialRoadsK {P : Type} (K : GeomKernel F P) (p : LayoutParameters F)
    (boundary : P) (roads0 : List (Road F)) : List (Road F) :=
  ringPhaseK K p boundary (radialPhaseK K p boundary roads0)

/-- `_generate_mixed_roads`: the full grid phase, then one "Boulevard"
diagonal connector built from `create_smooth_curve` on the 3 points
corner–center–corner (only a single `LineString` clip is appended). -/
def mixedRoadsK [FloorRing F] {P : Type} (K : GeomKernel F P) (p : LayoutParameters F)
    (boundary : P) (roads0 : List (Road F)) : List (Road F) :=
  match K.clipLine (boulevardLine (K.bounds boundary)) boundary with
  | .line cs => gridRoadsK K p boundary roads0 ++ [⟨.main, cs, p.main_road_width, "Boulevard"⟩]
  | _ => gridRoadsK K p boundary roads0

/-- `_add_organic_connectors` (lines 284-303): for `i in range(0, n-1, 2)`
connect the midpoints of the centerlines of roads `i` and `i+1` with an
access-road "Lane". -/
def addOrganicConnectors (p : LayoutParameters F) (roads : List (Road F)) :
    List (Road F) :=
  if roads.length < 2 then roads
  else
    (List.range (roads.length / 2)).foldl (fun acc k =>
      acc ++ [⟨.access,
        [((roads.getD (2 * k) ⟨.main, [], 0, ""⟩).centerline).getD
            (((roads.getD (2 * k) ⟨.main, [], 0, ""⟩).centerline).length / 2) (0, 0),
         ((roads.getD (min (2 * k + 1) (roads.length - 1)) ⟨.main, [], 0, ""⟩).centerline).getD
            (((roads.getD (min (2 * k + 1) (roads.length - 1))
                ⟨.main, [], 0, ""⟩).centerline).length / 2) (0, 0)],
        p.access_road_width, "Lane " ++ toString (2 * k + 1)⟩]) roads

/-- `_generate_organic_roads` (lines 219-253): three "Parkway" curves whose
interior control points are jittered by `random.uniform` draws; `rng k`
models the result of the k-th `random.uniform` call of the run (the only
consumer of randomness in the whole pipeline).  Finally the organic
connectors are added. -/
def organicRoadsK [FloorRing F] {P : Type} (K : GeomKernel F P) (rng : ℕ → F)
    (p : LayoutParameters F) (boundary : P) (roads0 : List (Road F)) : List (Road F) :=
  addOrganicConnectors p
    ((List.range 3).foldl (fun acc (i : ℕ) =>
      match K.clipLine (create_smooth_curve
          [((K.bounds boundary).x0,
            (K.bounds boundary).y0 + (((i : F) + 1) / 4) *
              ((K.bounds boundary).y1 - (K.bounds boundary).y0)),
           ((K.bounds boundary).x0 + ((K.bounds boundary).x1 - (K.bounds boundary).x0) * (3/10),
            (K.bounds boundary).y0 + (((i : F) + 1) / 4) *
              ((K.bounds boundary).y1 - (K.bounds boundary).y0) + rng (3 * i)),
           ((K.bounds boundary).x0 + ((K.bounds boundary).x1 - (K.bounds boundary).x0) * (7/10),
            (K.bounds boundary).y0 + (((i : F) + 1) / 4) *
              ((K.bounds boundary).y1 - (K.bounds boundary).y0) + rng (3 * i + 1)),
           ((K.bounds boundary).x1,
            (K.bounds boundary).y0 + (((i : F) + 1) / 4) *
              ((K.bounds boundary).y1 - (K.bounds boundary).y0) + rng (3 * i + 2))] 20)
          boundary with
      | .line cs => acc ++ [⟨.main, cs, p.main_road_width, "Parkway " ++ toString (i + 1)⟩]
      | _ => acc) roads0)

/-- `_generate_blocks` (lines 305-327): with no roads the boundary is the
single block; otherwise subtract the union of buffered centerlines and
decompose. -/
def generateBlocks {P : Type} (K : GeomKernel F P) (boundary : P)
    (roads : List (Road F)) : List P :=
  if roads.isEmpty then [boundary]
  else K.blocksOf boundary (roads.map (fun r => (r.centerline, r.width)))

/-!
### `_allocate_green_spaces` (layout.py lines 329-361) — claim C8
-/

/-- Insert into a list sorted by non-increasing `area`, after all entries of
equal area (so the overall sort below is stable, like Python's `sorted`). -/
def insertDesc {P : Type} (area : P → F) (b : P) : List P → List P
  | [] => [b]
  | c :: cs => if area c < area b then b :: c :: cs else c :: insertDesc area b cs

/-- Stable sort by decreasing area:
`sorted(self._blocks, key=lambda b: b.area, reverse=True)`. -/
def sortBlocksDesc {P : Type} (area : P → F) (blocks : List P) : List P :=
  blocks.foldr (insertDesc area) []

/-- `green_radius = min(20.0, math.sqrt(block.area) * 0.15)` (line 349). -/
def greenRadius {P : Type} (K : GeomKernel F P) (b : P) : F :=
  min 20 (K.sqrtA (K.area b) * (15/100))

/-- `idx = self._blocks.index(block); self._blocks[idx] = repl`: replace the
first entry equal (shapely `__eq__`) to `target`. -/
def replaceFirst {P : Type} (beq : P → P → Bool) : List P → P → P → List P
  | [], _, _ => []
  | x :: xs, target, repl =>
    if beq x target then repl :: xs else x :: replaceFirst beq xs target repl

/-- The body of the allocation loop for one visited block, acting on the
state `(blocks, green_spaces, current_green_area)`: blocks of area ≤ 5000 are
skipped; otherwise the centroid disc clipped to the block is recorded (when
non-empty) and the block is replaced by its difference with it. -/
def allocStep {P : Type} (K : GeomKernel F P) (st : List P × List P × F) (b : P) :
    List P × List P × F :=
  if 5000 < K.area b then
    match K.clipDisc (K.centroid b) (greenRadius K b) b with
    | some g =>
        (replaceFirst K.beq st.1 b (K.diff b g), st.2.1 ++ [g], st.2.2 + K.area g)
    | none => st
  else st

/-- The allocation loop: visit the sorted blocks, stopping (`break`) as soon
as the accumulated green area has reached the target. -/
def allocLoop {P : Type} (K : GeomKernel F P) (target : F) :
    List P → List P × List P × F → List P × List P × F
  | [], st => st
  | b :: rest, st =>
    if target ≤ st.2.2 then st
    else allocLoop K target rest (allocStep K st b)

/-- `_allocate_green_spaces`: returns the updated blocks list and the list of
allocated green spaces.  `target = boundary.area * (green_space_percentage / 100)`. -/
def allocate_green_spaces {P : Type} (K : GeomKernel F P) (p : LayoutParameters F)
    (boundary : P) (blocks : List P) : List P × List P :=
  if blocks.isEmpty then (blocks, [])
  else
    let st := allocLoop K (K.area boundary * (p.green_space_percentage / 100))
      (sortBlocksDesc K.area blocks) (blocks, [], 0)
    (st.1, st.2.1)

/-!
### `_subdivide_block` on kernel polygons, `_generate_parcels`, and `draw()`
(layout.py lines 405-446, 484-593, 991-1010) — claims C9 and C3's wiring

`subdivideBlockK` is `_subdivide_block` verbatim over an arbitrary kernel
polygon; `subdivide_block` above is the same algorithm specialised to the
exactly-computable rectangular case.  The parameters it reads come from
`LayoutParameters.toSubdivParams`: the pydantic model declares no
`plot_width`, `plot_depth` or `remainder_strategy` fields, so the `getattr`
options are `none` in every pipeline run.
-/

/-- The `getattr` view of the pydantic `LayoutParameters` taken by
`_subdivide_block`: the three optional fields do not exist on the model. -/
def LayoutParameters.toSubdivParams (p : LayoutParameters F) : SubdivParams F :=
  { min_parcel_area := p.min_parcel_area, max_parcel_area := p.max_parcel_area,
    min_parcel_width := p.min_parcel_width,
    plot_width := none, plot_depth := none, remainder_strategy := none }

/-- The loop body of `_subdivide_block` (lines 568-584) over kernel polygons:
clip one tiling cell against the block and append it when it passes the
minimum-area filter (each part of a multi-polygon intersection is filtered
individually). -/
def clipStep {P : Type} (K : GeomKernel F P) (m : F) (block : P)
    (acc : List P) (cell : Rect F) : List P :=
  match K.clipRect cell block with
  | .poly q => if m ≤ K.area q + EPS F then acc ++ [q] else acc
  | .multi qs => acc ++ qs.filter (fun q => decide (m ≤ K.area q + EPS F))
  | _ => acc

/-- `_subdivide_block` over kernel polygons: identical structure to
`subdivide_block`, with `cell.intersection(block)` supplied by the kernel. -/
def subdivideBlockK [FloorRing F] {P : Type} (K : GeomKernel F P) (p : SubdivParams F)
    (block : P) : List P :=
  let parcels := (tileCells (K.bounds block).x0 (K.bounds block).y0
      (colWidths p (K.bounds block)) (rowHeights p (K.bounds block))).foldl
    (clipStep K p.min_parcel_area block) []
  if parcels.isEmpty ∧ p.min_parcel_area ≤ K.area block then [block] else parcels

/-- One entry of `self._parcels`. -/
structure ParcelInfo (F : Type) where
  id : String
  vertices : List (Pt F)
  area : F
  width : F
  depth : F
  centroid : Pt F
  street_frontage : List (Pt F)
  buildable_area : List (Pt F)
deriving DecidableEq

/-- `f"P{n:04d}"`. -/
def parcelIdStr (n : ℕ) : String :=
  "P" ++ String.mk (List.replicate (4 - (toString n).length) (Char.ofNat 48)) ++ toString n

/-- The squared-length based edge length used by `_find_street_frontage`
(`edge.length` = Euclidean length), expressed through the kernel's
`math.sqrt`. -/
def edgeLength {P : Type} (K : GeomKernel F P) (e : Pt F × Pt F) : F :=
  K.sqrtA ((e.2.1 - e.1.1)^2 + (e.2.2 - e.1.2)^2)

/-- Build one `ParcelInfo` (lines 416-443): ring without the closing
coordinate, area, bounding-box width/depth, centroid, street frontage (with
`self._roads_union`, which is never assigned, hence `none`), and the
setback-shrunk buildable area. -/
def mkParcelInfo {P : Type} (K : GeomKernel F P) (p : LayoutParameters F) (pid : ℕ)
    (plot : P) : ParcelInfo F :=
  { id := parcelIdStr pid,
    vertices := (K.exteriorRing plot).dropLast,
    area := K.area plot,
    width := (K.bounds plot).x1 - (K.bounds plot).x0,
    depth := (K.bounds plot).y1 - (K.bounds plot).y0,
    centroid := K.centroid plot,
    street_frontage := find_street_frontage (edgeLength K) none (K.exteriorRing plot),
    buildable_area :=
      match K.shrink plot p.front_setback with
      | some ring => ring.dropLast
      | none => [] }

/-- `_generate_parcels` (lines 405-446): global sequential ids starting at 1;
blocks smaller than `min_parcel_area` are skipped before subdivision. -/
def generateParcels [FloorRing F] {P : Type} (K : GeomKernel F P)
    (p : LayoutParameters F) (blocks : List P) : List (ParcelInfo F) :=
  (blocks.foldl (fun (st : List (ParcelInfo F) × ℕ) block =>
    if K.area block < p.min_parcel_area then st
    else
      (subdivideBlockK K p.toSubdivParams block).foldl
        (fun st2 plot => (st2.1 ++ [mkParcelInfo K p st2.2 plot], st2.2 + 1)) st)
    ([], 1)).1

/-- The road-generation dispatch of `draw()` (lines 991-1000): note that any
`subdivision_type` other than grid/radial/organic falls into the mixed
branch. -/
def generateRoads [FloorRing F] {P : Type} (K : GeomKernel F P) (rng : ℕ → F)
    (p : LayoutParameters F) (boundary : P) : List (Road F) :=
  if p.subdivision_type = "grid" then gridRoadsK K p boundary []
  else if p.subdivision_type = "radial" then radialRoadsK K p boundary []
  else if p.subdivision_type = "organic" then organicRoadsK K rng p boundary []
  else mixedRoadsK K p boundary []

/-- The generation part of `draw()` (lines 991-1010): roads, then blocks,
then optional green spaces, then parcels.  Returns the observable road and
parcel sequences. -/
def runPipeline [FloorRing F] {P : Type} (K : GeomKernel F P) (rng : ℕ → F)
    (p : LayoutParameters F) (boundary : P) : List (Road F) × List (ParcelInfo F) :=
  (generateRoads K rng p boundary,
   generateParcels K p
     (if p.include_green_spaces then
        (allocate_green_spaces K p boundary
          (generateBlocks K boundary (generateRoads K rng p boundary))).1
      else generateBlocks K boundary (generateRoads K rng p boundary)))

/-!
### An exact kernel for axis-aligned rectangular boundaries

For a rectangular boundary and the axis-parallel scan lines of the grid
strategy, every shapely call the grid path makes is exactly computable.  The
fields not exercised on the runs below (`ringClip`, `clipDisc`, `diff`,
`sqrtA`, `dirs`, and `blocksOf`, which is only reached when roads exist) are
inert placeholders; every theorem that uses `rectKernel` evaluates only
grid-path runs without green spaces, where the exercised fields are exact.
-/

/-- `LineString([p, q]).intersection(rect)` for an axis-parallel two-point
segment, exact: the clamped overlap (coords ascending, as for the grid's
left-to-right / bottom-to-top query lines); degenerate single-point overlaps
are classified `other` (a shapely `Point`), and non-axis-parallel queries are
conservatively `other` (they are never made by the runs proved about). -/
def rectClipLine (pts : List (Pt F)) (r : Rect F) : LineClip F :=
  match pts with
  | [p, q] =>
    if p.2 = q.2 then
      if r.y0 ≤ p.2 ∧ p.2 ≤ r.y1 then
        if max (min p.1 q.1) r.x0 < min (max p.1 q.1) r.x1 then
          .line [(max (min p.1 q.1) r.x0, p.2), (min (max p.1 q.1) r.x1, p.2)]
        else if max (min p.1 q.1) r.x0 = min (max p.1 q.1) r.x1 then .other
        else .empty
      else .empty
    else if p.1 = q.1 then
      if r.x0 ≤ p.1 ∧ p.1 ≤ r.x1 then
        if max (min p.2 q.2) r.y0 < min (max p.2 q.2) r.y1 then
          .line [(p.1, max (min p.2 q.2) r.y0), (p.1, min (max p.2 q.2) r.y1)]
        else if max (min p.2 q.2) r.y0 = min (max p.2 q.2) r.y1 then .other
        else .empty
      else .empty
    else .other
  | _ => .other

/-- The exact kernel on axis-aligned rectangles. -/
def rectKernel : GeomKernel F (Rect F) where
  bounds := id
  centroid := fun r => ((r.x0 + r.x1) / 2, (r.y0 + r.y1) / 2)
  area := Rect.area
  beq := fun a b => decide (a = b)
  clipLine := rectClipLine
  ringClip := fun _ _ _ => .other
  blocksOf := fun b _ => [b]
  clipDisc := fun _ _ _ => none
  diff := fun b _ => b
  clipRect := fun cell block =>
    if (rectInter cell block).proper then .poly (rectInter cell block)
    else if (rectInter cell block).x0 ≤ (rectInter cell block).x1 ∧
        (rectInter cell block).y0 ≤ (rectInter cell block).y1 then .degenerate
    else .empty
  exteriorRing := fun r =>
    [(r.x0, r.y0), (r.x1, r.y0), (r.x1, r.y1), (r.x0, r.y1), (r.x0, r.y0)]
  shrink := fun r d =>
    if 2 * d < r.width ∧ 2 * d < r.height then
      some [(r.x0 + d, r.y0 + d), (r.x1 - d, r.y0 + d), (r.x1 - d, r.y1 - d),
        (r.x0 + d, r.y1 - d), (r.x0 + d, r.y0 + d)]
    else none
  sqrtA := fun x => x
  dirs := fun _ => (1, 0)

/-!
### Claim C9 — determinism of the non-organic paths

The only randomness in the whole pipeline is `random.uniform` inside
`_generate_organic_roads`, modelled by the `rng` stream parameter of
`runPipeline`.  The grid, radial and mixed dispatch branches do not mention
`rng`, so the whole run is independent of it.
-/

/-- Claim C9: with `subdivision_type` grid, radial or mixed, two runs of the
generation pipeline on the same boundary and parameters — differing only in
the random stream — produce identical road sequences and identical parcel
sequences. -/
theorem c9_nonorganic_determinism [FloorRing F] {P : Type} (K : GeomKernel F P)
    (rng₁ rng₂ : ℕ → F) (p : LayoutParameters F) (boundary : P)
    (h : p.subdivision_type = "grid" ∨ p.subdivision_type = "radial" ∨
      p.subdivision_type = "mixed") :
    runPipeline K rng₁ p boundary = runPipeline K rng₂ p boundary := by
  have hroads : generateRoads K rng₁ p boundary = generateRoads K rng₂ p boundary := by
    unfold generateRoads
    rcases h with h | h | h <;>
      (rw [h]; split_ifs with h1 h2 h3
       any_goals rfl
       all_goals exact absurd h3 (by decide))
  unfold runPipeline
  rw [hroads]

/-- Parameters for the C9 witness: a grid run (green spaces disabled). -/
def c9Params : LayoutParameters ℚ :=
  { main_road_width := 15, secondary_road_width := 12, access_road_width := 9,
    min_parcel_area := 450, max_parcel_area := 1000, min_parcel_width := 15,
    subdivision_type := "grid", include_green_spaces := false,
    green_space_percentage := 10, front_setback := 6,
    max_block_length := 200, max_block_width := 100 }

/-- Witness for C9: two concrete distinct random streams give the same run. -/
theorem c9_nonorganic_determinism_witness :
    runPipeline rectKernel (fun _ => (0 : ℚ)) c9Params ⟨0, 0, 50, 50⟩
      = runPipeline rectKernel (fun n => (n : ℚ)) c9Params ⟨0, 0, 50, 50⟩ :=
  c9_nonorganic_determinism rectKernel _ _ c9Params ⟨0, 0, 50, 50⟩ (Or.inl rfl)

/-!
### Claim C6 — grid avenue naming
-/

/-- The default `LayoutParameters` of models/plan.py with grid subdivision. -/
def defaultParams : LayoutParameters ℚ :=
  { main_road_width := 15, secondary_road_width := 12, access_road_width := 9,
    min_parcel_area := 450, max_parcel_area := 1000, min_parcel_width := 15,
    subdivision_type := "grid", include_green_spaces := true,
    green_space_percentage := 10, front_setback := 6,
    max_block_length := 200, max_block_width := 100 }

def c6Boundary : Rect ℚ := ⟨0, 0, 500, 300⟩

theorem c6_ys : scanPositions (0 : ℚ) 300 112 = [112] := by
  unfold scanPositions scanCount
  rw [if_pos (by norm_num : (0:ℚ) < 112)]
  rw [show ((300:ℚ) - 112 - 0) / 112 = 47/28 by norm_num]
  rw [show ⌈(47/28 : ℚ)⌉ = 2 by rw [Int.ceil_eq_iff]; push_cast; norm_num]
  rw [show ((2:ℤ) - 1).toNat = 1 by rfl]
  rw [show List.range 1 = [0] from rfl]
  simp only [List.map]
  norm_num

theorem c6_xs : scanPositions (0 : ℚ) 500 215 = [215] := by
  unfold scanPositions scanCount
  rw [if_pos (by norm_num : (0:ℚ) < 215)]
  rw [show ((500:ℚ) - 215 - 0) / 215 = 57/43 by norm_num]
  rw [show ⌈(57/43 : ℚ)⌉ = 2 by rw [Int.ceil_eq_iff]; push_cast; norm_num]
  rw [show ((2:ℤ) - 1).toNat = 1 by rfl]
  rw [show List.range 1 = [0] from rfl]
  simp only [List.map]
  norm_num

theorem c6_main_clip :
    rectClipLine [((-10 : ℚ), 112), (510, 112)] c6Boundary
      = .line [(0, 112), (500, 112)] := by
  unfold rectClipLine c6Boundary
  norm_num [min_def, max_def]

theorem c6_sec_clip :
    rectClipLine [((215 : ℚ), -10), (215, 310)] c6Boundary
      = .line [(215, 0), (215, 300)] := by
  unfold rectClipLine c6Boundary
  norm_num [min_def, max_def]

theorem c6_mains :
    gridMainsK rectKernel defaultParams c6Boundary []
      = [⟨.main, [(0, 112), (500, 112)], 15, "Street 1"⟩] := by
  unfold gridMainsK
  rw [show (rectKernel (F := ℚ)).bounds c6Boundary = c6Boundary from rfl]
  rw [show defaultParams.max_block_width + defaultParams.secondary_road_width = (112:ℚ)
    by unfold defaultParams; norm_num]
  rw [show c6Boundary.y0 = (0:ℚ) from rfl, show c6Boundary.y1 = (300:ℚ) from rfl,
    show c6Boundary.x0 = (0:ℚ) from rfl, show c6Boundary.x1 = (500:ℚ) from rfl]
  rw [c6_ys]
  simp only [List.foldl]
  rw [show (0:ℚ) - 10 = -10 by norm_num, show (500:ℚ) + 10 = 510 by norm_num]
  rw [show (rectKernel (F := ℚ)).clipLine = rectClipLine from rfl, c6_main_clip]
  rfl

theorem c6_grid :
    gridRoadsK rectKernel defaultParams c6Boundary []
      = [⟨.main, [(0, 112), (500, 112)], 15, "Street 1"⟩,
         ⟨.secondary, [(215, 0), (215, 300)], 12, "Avenue B"⟩] := by
  unfold gridRoadsK
  rw [show (rectKernel (F := ℚ)).bounds c6Boundary = c6Boundary from rfl]
  rw [show defaultParams.max_block_length + defaultParams.main_road_width = (215:ℚ)
    by unfold defaultParams; norm_num]
  rw [show c6Boundary.y0 = (0:ℚ) from rfl, show c6Boundary.y1 = (300:ℚ) from rfl,
    show c6Boundary.x0 = (0:ℚ) from rfl, show c6Boundary.x1 = (500:ℚ) from rfl]
  rw [c6_xs, c6_mains]
  simp only [List.foldl]
  rw [show (0:ℚ) - 10 = -10 by norm_num, show (300:ℚ) + 10 = 310 by norm_num]
  rw [show (rectKernel (F := ℚ)).clipLine = rectClipLine from rfl, c6_sec_clip]
  rfl

/-- Counterexample to claim C6: on the 500×300 rectangular boundary with the
default parameters, the grid strategy emits one main road first, so the first
emitted secondary segment (k = 0) is named "Avenue B" (letter index
`len(roads) % 26 = 1`), not "Avenue A" as the claim's `k mod 26` rule says. -/
theorem c6_counterexample :
    ((gridRoadsK rectKernel defaultParams c6Boundary []).filter
        (fun r => decide (r.rtype = RoadType.secondary))).map Road.name = ["Avenue B"] ∧
    ("Avenue B" : String) ≠ "Avenue A" := by
  constructor
  · rw [c6_grid]
    rfl
  · decide

/-- Every road at position `k ≥ m` of the list is named `avenueName k`
("Avenue " plus letter `k mod 26`). -/
def NamedAvenuesFrom (m : ℕ) (l : List (Road F)) : Prop :=
  ∀ k, m ≤ k → k < l.length → (l.getD k ⟨.main, [], 0, ""⟩).name = avenueName k

theorem namedAvenuesFrom_append {m : ℕ} {acc : List (Road F)}
    (h : NamedAvenuesFrom m acc) {r : Road F} (hr : r.name = avenueName acc.length) :
    NamedAvenuesFrom m (acc ++ [r]) := by
  intro k hm hk
  rw [List.length_append, List.length_singleton] at hk
  rcases lt_or_ge k acc.length with hlt | hge
  · rw [List.getD_append _ _ _ _ hlt]
    exact h k hm hlt
  · have hkeq : k = acc.length := by omega
    subst hkeq
    rw [List.getD_append_right _ _ _ _ hge, Nat.sub_self]
    simpa using hr

theorem foldl_append_avenues {m : ℕ} (ty : RoadType) (w : F) :
    ∀ (parts : List (List (Pt F))) (acc : List (Road F)), NamedAvenuesFrom m acc →
      NamedAvenuesFrom m
        (parts.foldl (fun a cs => a ++ [⟨ty, cs, w, avenueName a.length⟩]) acc)
  | [], _, h => h
  | _ :: cs, acc, h =>
      foldl_append_avenues ty w cs _ (namedAvenuesFrom_append h rfl)

theorem appendRoads_avenues {m : ℕ} {acc : List (Road F)} (h : NamedAvenuesFrom m acc)
    (ty : RoadType) (w : F) (clip : LineClip F) :
    NamedAvenuesFrom m (appendRoads acc ty w avenueName clip) := by
  cases clip with
  | empty => exact h
  | other => exact h
  | line cs => exact namedAvenuesFrom_append h rfl
  | multi parts => exact foldl_append_avenues ty w parts acc h

theorem scanFold_avenues {m : ℕ} {P : Type} (K : GeomKernel F P) (boundary : P)
    (w : F) (mkLine : F → List (Pt F)) :
    ∀ (xs : List F) (acc : List (Road F)), NamedAvenuesFrom m acc →
      NamedAvenuesFrom m
        (xs.foldl (fun acc x => appendRoads acc .secondary w avenueName
          (K.clipLine (mkLine x) boundary)) acc)
  | [], _, h => h
  | _ :: xs, acc, h =>
      scanFold_avenues K boundary w mkLine xs _ (appendRoads_avenues h _ _ _)

/-- Claim C6, amended: in the grid strategy the secondary segments are the
roads appended after the main phase, and the one at overall position `k`
(0-based, mains included — i.e. the `(k - m)`-th emitted secondary, where `m`
is the number of segments emitted by the main phase) is named
`"Avenue " ++ chr(65 + k % 26)`: the letter index is offset by the number of
previously emitted road segments, not the secondary count alone. -/
theorem c6_avenue_letter_offset [FloorRing F] {P : Type} (K : GeomKernel F P)
    (p : LayoutParameters F) (boundary : P) (roads0 : List (Road F)) :
    NamedAvenuesFrom (gridMainsK K p boundary roads0).length
      (gridRoadsK K p boundary roads0) := by
  unfold gridRoadsK
  exact scanFold_avenues K boundary _
    (fun x => [(x, (K.bounds boundary).y0 - 10), (x, (K.bounds boundary).y1 + 10)]) _ _
    (fun k hm hk => absurd hk (by omega))

/-- Witness for the amended C6 on the concrete 500×300 grid run: the road at
position 1 (the first secondary, after m = 1 main) is named `avenueName 1` =
"Avenue B". -/
theorem c6_avenue_letter_offset_witness :
    ((gridRoadsK rectKernel defaultParams c6Boundary []).getD 1
      ⟨.main, [], 0, ""⟩).name = avenueName 1 := by
  refine c6_avenue_letter_offset rectKernel defaultParams c6Boundary [] 1 ?_ ?_
  · rw [c6_mains]
    simp
  · rw [c6_grid]
    simp

/-!
### Claim C8 — green-space allocation order and policy
-/

theorem mem_insertDesc {P : Type} {area : P → F} {b x : P} :
    ∀ {l : List P}, x ∈ insertDesc area b l ↔ x = b ∨ x ∈ l := by
  intro l
  induction l with
  | nil => simp [insertDesc]
  | cons c cs ih =>
    rw [insertDesc]
    split_ifs with hc
    · simp [List.mem_cons]
    · simp only [List.mem_cons, ih]
      tauto

theorem insertDesc_pairwise {P : Type} {area : P → F} {b : P} :
    ∀ {l : List P}, l.Pairwise (fun x y => area y ≤ area x) →
      (insertDesc area b l).Pairwise (fun x y => area y ≤ area x) := by
  intro l
  induction l with
  | nil => simp [insertDesc]
  | cons c cs ih =>
    intro h
    rw [insertDesc]
    split_ifs with hc
    · refine List.Pairwise.cons ?_ h
      intro y hy
      rcases List.mem_cons.mp hy with rfl | hy2
      · exact le_of_lt hc
      · exact le_trans (List.rel_of_pairwise_cons h hy2) (le_of_lt hc)
    · refine List.Pairwise.cons ?_ (ih (List.Pairwise.of_cons h))
      intro y hy
      rcases mem_insertDesc.mp hy with rfl | hy2
      · exact le_of_not_lt hc
      · exact List.rel_of_pairwise_cons h hy2

theorem insertDesc_perm {P : Type} (area : P → F) (b : P) :
    ∀ (l : List P), (insertDesc area b l).Perm (b :: l) := by
  intro l
  induction l with
  | nil => rfl
  | cons c cs ih =>
    rw [insertDesc]
    split_ifs with hc
    · rfl
    · exact (ih.cons c).trans (List.Perm.swap b c cs)

/-- `sorted(blocks, key=area, reverse=True)` is sorted by non-increasing
area. -/
theorem sortBlocksDesc_sorted {P : Type} (area : P → F) (blocks : List P) :
    (sortBlocksDesc area blocks).Pairwise (fun x y => area y ≤ area x) := by
  induction blocks with
  | nil => simp [sortBlocksDesc]
  | cons b bs ih => exact insertDesc_pairwise ih

/-- The sorted visit list is a permutation of the block list. -/
theorem sortBlocksDesc_perm {P : Type} (area : P → F) (blocks : List P) :
    (sortBlocksDesc area blocks).Perm blocks := by
  induction blocks with
  | nil => rfl
  | cons b bs ih => exact (insertDesc_perm area b _).trans (ih.cons b)

theorem replaceFirst_mem {P : Type} (beq : P → P → Bool) {x : P} :
    ∀ {l : List P} (target repl : P), x ∈ l → beq x target = false →
      x ∈ replaceFirst beq l target repl := by
  intro l
  induction l with
  | nil => intro _ _ h _; exact absurd h (List.not_mem_nil x)
  | cons y ys ih =>
    intro target repl hx hne
    rw [replaceFirst]
    split_ifs with hy
    · rcases List.mem_cons.mp hx with rfl | hx2
      · rw [hy] at hne
        exact absurd hne (by simp)
      · exact List.mem_cons_of_mem _ hx2
    · rcases List.mem_cons.mp hx with rfl | hx2
      · exact List.mem_cons_self _ _
      · exact List.mem_cons_of_mem _ (ih target repl hx2 hne)

/-- Blocks at or below the 5000 threshold do not change the state when
visited. -/
theorem allocStep_small {P : Type} (K : GeomKernel F P) (st : List P × List P × F)
    (b : P) (h : ¬ 5000 < K.area b) : allocStep K st b = st := by
  unfold allocStep
  rw [if_neg h]

/-- An eligible block receives the centroid disc of radius
`min(20, sqrt(area)·0.15)` clipped to the block (when non-empty), and is
replaced in the blocks list by its difference with it. -/
theorem allocStep_eligible {P : Type} (K : GeomKernel F P) (st : List P × List P × F)
    (b : P) (h : 5000 < K.area b) :
    allocStep K st b =
      match K.clipDisc (K.centroid b) (min 20 (K.sqrtA (K.area b) * (15/100))) b with
      | some g => (replaceFirst K.beq st.1 b (K.diff b g), st.2.1 ++ [g],
          st.2.2 + K.area g)
      | none => st := by
  unfold allocStep greenRadius
  rw [if_pos h]

/-- Once the accumulated green area has reached the target, the loop visits
no further block. -/
theorem allocLoop_stop {P : Type} (K : GeomKernel F P) (target : F) :
    ∀ (bs : List P) (st : List P × List P × F), target ≤ st.2.2 →
      allocLoop K target bs st = st
  | [], _, _ => rfl
  | _ :: _, _, h => by unfold allocLoop; rw [if_pos h]

theorem allocStep_preserves_small {P : Type} (K : GeomKernel F P)
    (hco : ∀ a b, K.beq a b = true → K.area a = K.area b)
    {x : P} (hx : K.area x ≤ 5000) (st : List P × List P × F) (b : P)
    (hmem : x ∈ st.1) : x ∈ (allocStep K st b).1 := by
  unfold allocStep
  split_ifs with hb
  · cases hdisc : K.clipDisc (K.centroid b) (greenRadius K b) b with
    | none => exact hmem
    | some g =>
      refine replaceFirst_mem K.beq _ _ hmem ?_
      cases hbe : K.beq x b with
      | false => rfl
      | true => exact absurd (hco x b hbe ▸ hx) (not_le.mpr hb)
  · exact hmem

theorem allocLoop_preserves_small {P : Type} (K : GeomKernel F P) (target : F)
    (hco : ∀ a b, K.beq a b = true → K.area a = K.area b)
    {x : P} (hx : K.area x ≤ 5000) :
    ∀ (bs : List P) (st : List P × List P × F), x ∈ st.1 →
      x ∈ (allocLoop K target bs st).1 := by
  intro bs
  induction bs with
  | nil => intro st h; exact h
  | cons b rest ih =>
    intro st h
    unfold allocLoop
    split_ifs with htarget
    · exact h
    · exact ih _ (allocStep_preserves_small K hco hx st b h)

/-- Claim C8, amended: the allocator visits the blocks in *non-increasing*
(not strictly decreasing) area order — a stable descending sort, so blocks of
equal area are visited in input order; a visited block of area ≤ 5000 never
changes the state (and, when shapely equality determines areas, every such
block survives unchanged into the output); an eligible block receives the
centroid disc of radius `min(20, sqrt(area)·0.15)` clipped to the block and
is replaced by its difference with it; and the loop stops as soon as the
accumulated green area reaches `boundary_area · green_space_percentage / 100`. -/
theorem c8_green_allocation {P : Type} (K : GeomKernel F P) (p : LayoutParameters F)
    (boundary : P) (blocks : List P) :
    ((sortBlocksDesc K.area blocks).Pairwise (fun x y => K.area y ≤ K.area x) ∧
      (sortBlocksDesc K.area blocks).Perm blocks) ∧
    (∀ (st : List P × List P × F) (b : P), ¬ 5000 < K.area b →
      allocStep K st b = st) ∧
    (∀ (st : List P × List P × F) (b : P), 5000 < K.area b →
      allocStep K st b =
        match K.clipDisc (K.centroid b) (min 20 (K.sqrtA (K.area b) * (15/100))) b with
        | some g => (replaceFirst K.beq st.1 b (K.diff b g), st.2.1 ++ [g],
            st.2.2 + K.area g)
        | none => st) ∧
    (∀ (bs : List P) (st : List P × List P × F),
      K.area boundary * (p.green_space_percentage / 100) ≤ st.2.2 →
      allocLoop K (K.area boundary * (p.green_space_percentage / 100)) bs st = st) ∧
    ((∀ a b, K.beq a b = true → K.area a = K.area b) →
      ∀ x ∈ blocks, K.area x ≤ 5000 →
        x ∈ (allocate_green_spaces K p boundary blocks).1) := by
  refine ⟨⟨sortBlocksDesc_sorted K.area blocks, sortBlocksDesc_perm K.area blocks⟩,
    allocStep_small K, allocStep_eligible K, allocLoop_stop K _, ?_⟩
  intro hco x hxmem hxsmall
  unfold allocate_green_spaces
  split_ifs with hempty
  · exact hxmem
  · exact allocLoop_preserves_small K _ hco hxsmall _ _ hxmem

/-- A kernel over bare areas (only `area` and `beq` are consulted by the
facts below): models blocks through their areas alone. -/
def qKernel : GeomKernel ℚ ℚ :=
  { bounds := fun _ => ⟨0, 0, 0, 0⟩, centroid := fun _ => (0, 0), area := id,
    beq := fun a b => decide (a = b), clipLine := fun _ _ => .other,
    ringClip := fun _ _ _ => .other, blocksOf := fun b _ => [b],
    clipDisc := fun _ _ _ => none, diff := fun b _ => b,
    clipRect := fun _ _ => .empty, exteriorRing := fun _ => [],
    shrink := fun _ _ => none, sqrtA := id, dirs := fun _ => (1, 0) }

/-- Counterexample to claim C8 as stated: with two blocks of equal area 6000
the visit order is `[6000, 6000]`, whose area sequence is *not* strictly
decreasing — the sort is only non-increasing (and stable). -/
theorem c8_counterexample :
    sortBlocksDesc (qKernel.area) [(6000 : ℚ), 6000] = [6000, 6000] ∧
    ¬ List.Chain' (fun a b : ℚ => qKernel.area b < qKernel.area a)
      ((sortBlocksDesc (qKernel.area) [(6000 : ℚ), 6000]).map qKernel.area) := by
  have hsort : sortBlocksDesc (qKernel.area) [(6000 : ℚ), 6000] = [6000, 6000] := by
    unfold sortBlocksDesc
    simp only [List.foldr, insertDesc]
    rw [show qKernel.area = (id : ℚ → ℚ) from rfl]
    simp
  refine ⟨hsort, ?_⟩
  rw [hsort]
  rw [show qKernel.area = (id : ℚ → ℚ) from rfl]
  simp

/-- Witness for the amended C8 at a concrete instance: a 4000-area block
survives allocation unchanged. -/
theorem c8_green_allocation_witness :
    (4000 : ℚ) ∈ (allocate_green_spaces qKernel
      { main_road_width := 15, secondary_road_width := 12, access_road_width := 9,
        min_parcel_area := 450, max_parcel_area := 1000, min_parcel_width := 15,
        subdivision_type := "grid", include_green_spaces := true,
        green_space_percentage := 10, front_setback := 6,
        max_block_length := 200, max_block_width := 100 }
      (10000 : ℚ) [(6000 : ℚ), 4000]).1 := by
  refine (c8_green_allocation qKernel _ 10000 [(6000 : ℚ), 4000]).2.2.2.2 ?_ 4000 ?_ ?_
  · intro a b hab
    have : a = b := of_decide_eq_true hab
    rw [this]
  · simp
  · rw [show qKernel.area = (id : ℚ → ℚ) from rfl]
    norm_num

/-!
### Claim C5 — radial cardinality

`_generate_radial_roads` makes a fixed 8 radial and 3 ring attempts, but a
radial attempt is emitted only when its clipped ray is a single non-empty
`LineString`.  For a boundary whose centroid falls outside the filled region
(a C-shaped rectilinear polygon), the ray at 0° misses the region entirely,
so any kernel that reports emptiness truthfully emits at most 7 radial
segments.
-/

/-- The point set of a polyline: the union of its consecutive closed
segments. -/
def polylinePts (pts : List (Pt ℝ)) : Set (Pt ℝ) :=
  ⋃ e ∈ pts.zip pts.tail, segment ℝ e.1 e.2

theorem polylinePts_pair (p q : Pt ℝ) : polylinePts [p, q] = segment ℝ p q := by
  unfold polylinePts
  ext x
  simp

/-- The kernel's line clip reports `is_empty` exactly when the polyline truly
misses the polygon's filled point set. -/
def ClipEmptySound {P : Type} (K : GeomKernel ℝ P) (region : P → Set (Pt ℝ)) : Prop :=
  ∀ pts poly, K.clipLine pts poly = .empty ↔ polylinePts pts ∩ region poly = ∅

/-- Number of `main` segments; every radial append is `main`, every ring
append is `secondary`, so on `radialRoadsK _ _ _ []` this counts the emitted
radial segments. -/
def countMain (l : List (Road ℝ)) : ℕ :=
  (l.filter (fun r => decide (r.rtype = RoadType.main))).length

theorem countMain_append_main (acc : List (Road ℝ)) (cs : List (Pt ℝ)) (w : ℝ)
    (nm : String) : countMain (acc ++ [⟨.main, cs, w, nm⟩]) = countMain acc + 1 := by
  unfold countMain
  simp [List.filter_append, List.filter]

theorem countMain_append_sec (acc : List (Road ℝ)) (cs : List (Pt ℝ)) (w : ℝ)
    (nm : String) : countMain (acc ++ [⟨.secondary, cs, w, nm⟩]) = countMain acc := by
  unfold countMain
  simp [List.filter_append, List.filter]

theorem countMain_enumFold (w : ℝ) (nm : ℕ → String) :
    ∀ (l : List (ℕ × List (Pt ℝ))) (acc : List (Road ℝ)),
      countMain (l.foldl (fun a jcs =>
        a ++ [⟨.secondary, jcs.2, w, nm jcs.1⟩]) acc) = countMain acc
  | [], _ => rfl
  | _ :: l, acc => by
      rw [List.foldl_cons, countMain_enumFold w nm l _, countMain_append_sec]

theorem ringStep_countMain {P : Type} (K : GeomKernel ℝ P) (p : LayoutParameters ℝ)
    (poly : P) (acc : List (Road ℝ)) (i : ℕ) :
    countMain (ringStep K p poly acc i) = countMain acc := by
  unfold ringStep
  cases K.ringClip (K.centroid poly)
      (((i : ℝ) + 1) * (min ((K.bounds poly).x1 - (K.bounds poly).x0)
          ((K.bounds poly).y1 - (K.bounds poly).y0) / 2) / 4) poly with
  | line cs => exact countMain_append_sec acc cs _ _
  | multi parts => exact countMain_enumFold _ _ parts.enum acc
  | empty => rfl
  | other => rfl

theorem countMain_ringFold {P : Type} (K : GeomKernel ℝ P) (p : LayoutParameters ℝ)
    (poly : P) : ∀ (is : List ℕ) (acc : List (Road ℝ)),
      countMain (is.foldl (ringStep K p poly) acc) = countMain acc
  | [], _ => rfl
  | i :: is, acc => by
      rw [List.foldl_cons, countMain_ringFold K p poly is _, ringStep_countMain]

theorem countMain_ringPhase {P : Type} (K : GeomKernel ℝ P) (p : LayoutParameters ℝ)
    (poly : P) (acc : List (Road ℝ)) :
    countMain (ringPhaseK K p poly acc) = countMain acc :=
  countMain_ringFold K p poly (List.range 3) acc

theorem radialStep_le {P : Type} (K : GeomKernel ℝ P) (p : LayoutParameters ℝ)
    (poly : P) (acc : List (Road ℝ)) (i : ℕ) :
    countMain (radialStep K p poly acc i) ≤ countMain acc + 1 := by
  unfold radialStep
  cases K.clipLine (radialRay K poly i) poly with
  | line cs => rw [countMain_append_main]
  | empty => exact Nat.le_succ _
  | multi parts => exact Nat.le_succ _
  | other => exact Nat.le_succ _

theorem radialStep_of_empty {P : Type} (K : GeomKernel ℝ P) (p : LayoutParameters ℝ)
    (poly : P) (acc : List (Road ℝ)) (i : ℕ)
    (h : K.clipLine (radialRay K poly i) poly = .empty) :
    radialStep K p poly acc i = acc := by
  unfold radialStep
  rw [h]

theorem countMain_radialFold_le {P : Type} (K : GeomKernel ℝ P) (p : LayoutParameters ℝ)
    (poly : P) : ∀ (is : List ℕ) (acc : List (Road ℝ)),
      countMain (is.foldl (radialStep K p poly) acc) ≤ countMain acc + is.length
  | [], _ => Nat.le_refl _
  | i :: is, acc => by
      rw [List.foldl_cons]
      calc countMain (is.foldl (radialStep K p poly) (radialStep K p poly acc i))
          ≤ countMain (radialStep K p poly acc i) + is.length :=
            countMain_radialFold_le K p poly is _
        _ ≤ (countMain acc + 1) + is.length :=
            Nat.add_le_add_right (radialStep_le K p poly acc i) _
        _ = countMain acc + (i :: is).length := by rw [List.length_cons]; omega

/-- Whether ring attempt `i` (0-based) emits at least one segment. -/
noncomputable def ringEmits {P : Type} (K : GeomKernel ℝ P) (poly : P) (i : ℕ) : Bool :=
  match K.ringClip (K.centroid poly)
      (((i : ℝ) + 1) * (min ((K.bounds poly).x1 - (K.bounds poly).x0)
          ((K.bounds poly).y1 - (K.bounds poly).y0) / 2) / 4) poly with
  | .line _ => true
  | .multi parts => !parts.isEmpty
  | _ => false

/-- The number of "ring-road groups": generative ring attempts that emitted
at least one segment. -/
noncomputable def ringGroupCount {P : Type} (K : GeomKernel ℝ P) (poly : P) : ℕ :=
  ((List.range 3).filter (ringEmits K poly)).length

/-- The closed C-shaped region: left bar `[0,1]×[0,10]`, bottom bar
`[0,10]×[0,1]`, top bar `[0,10]×[9,10]` — the filled set of the polygon with
ring `CVerts`. -/
def CRegion : Set (Pt ℝ) :=
  {q | (0 ≤ q.1 ∧ q.1 ≤ 1 ∧ 0 ≤ q.2 ∧ q.2 ≤ 10) ∨
       (0 ≤ q.1 ∧ q.1 ≤ 10 ∧ 0 ≤ q.2 ∧ q.2 ≤ 1) ∨
       (0 ≤ q.1 ∧ q.1 ≤ 10 ∧ 9 ≤ q.2 ∧ q.2 ≤ 10)}

/-- The exterior ring of the C-shaped boundary polygon. -/
def CVerts : List (Pt ℝ) :=
  [(0, 0), (10, 0), (10, 1), (1, 1), (1, 9), (10, 9), (10, 10), (0, 10)]

/-- The polygon (area) centroid from the exterior ring by the standard
shoelace formula — what shapely's `.centroid` computes for a polygon. -/
def polygonCentroid (vs : List (Pt F)) : Pt F :=
  ((((vs.zip (vs.tail ++ [vs.getD 0 (0, 0)])).map
      (fun pq => (pq.1.1 + pq.2.1) * (pq.1.1 * pq.2.2 - pq.2.1 * pq.1.2))).sum) /
    (3 * ((vs.zip (vs.tail ++ [vs.getD 0 (0, 0)])).map
      (fun pq => pq.1.1 * pq.2.2 - pq.2.1 * pq.1.2)).sum),
   (((vs.zip (vs.tail ++ [vs.getD 0 (0, 0)])).map
      (fun pq => (pq.1.2 + pq.2.2) * (pq.1.1 * pq.2.2 - pq.2.1 * pq.1.2))).sum) /
    (3 * ((vs.zip (vs.tail ++ [vs.getD 0 (0, 0)])).map
      (fun pq => pq.1.1 * pq.2.2 - pq.2.1 * pq.1.2)).sum))

/-- The C-shape's centroid is `(26/7, 5)` — inside the cavity, outside the
filled region. -/
theorem cshape_centroid : polygonCentroid CVerts = ((26/7 : ℝ), (5 : ℝ)) := by
  unfold polygonCentroid
  rw [show CVerts.zip (CVerts.tail ++ [CVerts.getD 0 (0, 0)]) =
    [(((0:ℝ),(0:ℝ)), ((10:ℝ),(0:ℝ))), ((10,0),(10,1)), ((10,1),(1,1)), ((1,1),(1,9)),
     ((1,9),(10,9)), ((10,9),(10,10)), ((10,10),(0,10)), ((0,10),(0,0))] from rfl]
  simp only [List.map, List.sum_cons, List.sum_nil]
  norm_num

/-- The horizontal ray east from the centroid misses the C-shape entirely:
the cavity is open to the east at height 5. -/
theorem ray0_empty :
    segment ℝ ((26/7 : ℝ), (5 : ℝ)) (26/7 + 1 * 1000, 5 + 0 * 1000) ∩ CRegion = ∅ := by
  apply Set.eq_empty_iff_forall_not_mem.mpr
  rintro x ⟨hseg, hreg⟩
  obtain ⟨a, b, ha, hb, hab, hx⟩ := hseg
  have ha1 : a = 1 - b := by linarith
  have h1 : x.1 = 26/7 + 1000 * b := by
    rw [← hx, ha1]
    simp only [Prod.fst_add, Prod.smul_fst, smul_eq_mul]
    ring
  have h2 : x.2 = 5 := by
    rw [← hx, ha1]
    simp only [Prod.snd_add, Prod.smul_snd, smul_eq_mul]
    ring
  have hx1 : (26/7 : ℝ) ≤ x.1 := by rw [h1]; nlinarith
  rcases hreg with ⟨_, h, _, _⟩ | ⟨_, _, _, h⟩ | ⟨_, _, h, _⟩ <;> rw [h2] at * <;> linarith

open Classical in
/-- A sound kernel over the single C-shaped polygon: its centroid is the
shoelace centroid of `CVerts`, its directions the real cosines/sines of the
45° multiples, and its line clip classifies a truly empty intersection as
`empty` and anything else as `other` (soundness only constrains emptiness). -/
noncomputable def cKernel : GeomKernel ℝ Unit :=
  { bounds := fun _ => ⟨0, 0, 10, 10⟩,
    centroid := fun _ => polygonCentroid CVerts,
    area := fun _ => 28,
    beq := fun _ _ => true,
    clipLine := fun pts _ => if polylinePts pts ∩ CRegion = ∅ then .empty else .other,
    ringClip := fun _ _ _ => .other,
    blocksOf := fun b _ => [b],
    clipDisc := fun _ _ _ => none,
    diff := fun b _ => b,
    clipRect := fun _ _ => .empty,
    exteriorRing := fun _ => [],
    shrink := fun _ _ => none,
    sqrtA := Real.sqrt,
    dirs := fun i => (Real.cos (i * Real.pi / 4), Real.sin (i * Real.pi / 4)) }

open Classical in
theorem cKernel_sound : ClipEmptySound cKernel (fun _ => CRegion) := by
  intro pts poly
  show (if polylinePts pts ∩ CRegion = ∅ then LineClip.empty else LineClip.other)
      = LineClip.empty ↔ polylinePts pts ∩ CRegion = ∅
  split_ifs with h
  · simp [h]
  · simp [h]

/-- For any empty-sound kernel over the C-shape (with the true centroid and
the true 0° direction), at most 7 of the 8 radial attempts are emitted. -/
theorem cshape_radial_le7 {P : Type} (K : GeomKernel ℝ P) (region : P → Set (Pt ℝ))
    (hsound : ClipEmptySound K region) (poly : P) (hreg : region poly = CRegion)
    (hcent : K.centroid poly = (26/7, 5)) (hd0 : K.dirs 0 = (1, 0))
    (p : LayoutParameters ℝ) :
    countMain (radialRoadsK K p poly []) ≤ 7 := by
  have hempty : K.clipLine (radialRay K poly 0) poly = .empty := by
    rw [hsound, hreg]
    unfold radialRay
    rw [hcent, hd0, polylinePts_pair]
    exact ray0_empty
  rw [radialRoadsK, countMain_ringPhase, radialPhaseK,
    show List.range 8 = 0 :: [1, 2, 3, 4, 5, 6, 7] from rfl, List.foldl_cons,
    radialStep_of_empty K p poly [] 0 hempty]
  calc countMain (List.foldl (radialStep K p poly) [] [1, 2, 3, 4, 5, 6, 7])
      ≤ countMain [] + 7 := countMain_radialFold_le K p poly [1, 2, 3, 4, 5, 6, 7] []
    _ = 7 := by rw [show countMain [] = 0 from rfl]

/-- The default parameters over ℝ. -/
def rParams : LayoutParameters ℝ :=
  { main_road_width := 15, secondary_road_width := 12, access_road_width := 9,
    min_parcel_area := 450, max_parcel_area := 1000, min_parcel_width := 15,
    subdivision_type := "radial", include_green_spaces := true,
    green_space_percentage := 10, front_setback := 6,
    max_block_length := 200, max_block_width := 100 }

/-- Counterexample to claim C5: it is not true that for every boundary (and
every kernel that truthfully reports empty clips) the radial strategy emits
exactly 8 radial segments and 3 ring groups — on the C-shaped boundary the
centroid lies in the cavity and the 0° ray is clipped to nothing, so at most
7 radial segments are emitted. -/
theorem c5_counterexample :
    ¬ (∀ (P : Type) (K : GeomKernel ℝ P) (region : P → Set (Pt ℝ)),
        ClipEmptySound K region → ∀ (poly : P) (p : LayoutParameters ℝ),
          countMain (radialRoadsK K p poly []) = 8 ∧ ringGroupCount K poly = 3) := by
  intro hcl
  have h8 := (hcl Unit cKernel (fun _ => CRegion) cKernel_sound () rParams).1
  have hle : countMain (radialRoadsK cKernel rParams () []) ≤ 7 := by
    refine cshape_radial_le7 cKernel (fun _ => CRegion) cKernel_sound () rfl ?_ ?_ rParams
    · exact cshape_centroid
    · show (Real.cos ((0 : ℕ) * Real.pi / 4), Real.sin ((0 : ℕ) * Real.pi / 4)) = (1, 0)
      norm_num
  omega

/-- Claim C5, amended: the generative counts are fixed — 8 radial ray
attempts and 3 ring attempts independent of the boundary — but each radial
attempt emits **at most** one segment (exactly when its clip is a single
non-empty LineString, so the emitted count can be below 8), the ring phase
emits no radial (`main`) segments, and at most 3 ring groups exist. -/
theorem c5_radial_bounds {P : Type} (K : GeomKernel ℝ P) (p : LayoutParameters ℝ)
    (poly : P) (roads0 : List (Road ℝ)) :
    countMain (radialRoadsK K p poly roads0) ≤ countMain roads0 + 8 ∧
    countMain (radialRoadsK K p poly roads0) = countMain (radialPhaseK K p poly roads0) ∧
    ringGroupCount K poly ≤ 3 := by
  refine ⟨?_, countMain_ringPhase K p poly _, ?_⟩
  · rw [radialRoadsK, countMain_ringPhase]
    exact countMain_radialFold_le K p poly (List.range 8) roads0
  · exact le_trans (List.length_filter_le _ _) (by simp)

/-!
### Claim C4 — area conservation

Modelled exactly over ℂ (the Euclidean plane with 2-dimensional Lebesgue
volume): a polygon's `.area` is the volume of its filled point set, a road
footprint `centerline.buffer(width/2)` is the closed `width/2`-neighbourhood
(`Metric.cthickening`) of the centerline's point set, and
`boundary.difference(roads_union)` is set difference, so the total block area
is the volume of `boundary \ footprint` (the components of the difference
partition it).  The configuration below is a real pipeline run: the grid
strategy on a 400×300 rectangle with the default parameters emits exactly
one road, whose footprint sticks out 7.5 units beyond the boundary on both
ends (round caps), so the sum of areas exceeds the boundary area by more
than the allowed `1e-6` relative tolerance.
-/

/-- Map a planar point to ℂ. -/
def toC (p : Pt ℝ) : ℂ := (p.1 : ℂ) + (p.2 : ℂ) * Complex.I

/-- shapely `.area` of a region of the plane. -/
noncomputable def regionArea (S : Set ℂ) : ℝ := (MeasureTheory.volume S).toReal

/-- The point set of a polyline in ℂ. -/
def polylineCPts (pts : List (Pt ℝ)) : Set ℂ :=
  ⋃ e ∈ pts.zip pts.tail, segment ℝ (toC e.1) (toC e.2)

theorem polylineCPts_pair (p q : Pt ℝ) :
    polylineCPts [p, q] = segment ℝ (toC p) (toC q) := by
  unfold polylineCPts
  ext x
  simp

/-- `LineString(centerline).buffer(width / 2)`: the closed Euclidean
`width/2`-neighbourhood of the centerline. -/
noncomputable def roadFootprint (cl : List (Pt ℝ)) (w : ℝ) : Set ℂ :=
  Metric.cthickening (w / 2) (polylineCPts cl)

/-- The default parameters over ℝ with green spaces disabled (grid type). -/
def c4Params : LayoutParameters ℝ :=
  { main_road_width := 15, secondary_road_width := 12, access_road_width := 9,
    min_parcel_area := 450, max_parcel_area := 1000, min_parcel_width := 15,
    subdivision_type := "grid", include_green_spaces := false,
    green_space_percentage := 10, front_setback := 6,
    max_block_length := 200, max_block_width := 100 }

/-- The 400×300 rectangular boundary (as a bounds rectangle). -/
def c4Rect : Rect ℝ := ⟨0, 0, 400, 300⟩

/-- The filled 400×300 boundary polygon in ℂ. -/
def c4Boundary : Set ℂ := Set.Icc (0:ℝ) 400 ×ℂ Set.Icc (0:ℝ) 300

/-- The footprint of the single emitted road (`Street 1`, centerline
`[(0,112),(400,112)]`, width 15). -/
noncomputable def c4Footprint : Set ℂ := roadFootprint [(0, 112), (400, 112)] 15

theorem c4_ys : scanPositions (0 : ℝ) 300 112 = [112] := by
  unfold scanPositions scanCount
  rw [if_pos (by norm_num : (0:ℝ) < 112)]
  rw [show ((300:ℝ) - 112 - 0) / 112 = 47/28 by norm_num]
  rw [show ⌈(47/28 : ℝ)⌉ = 2 by rw [Int.ceil_eq_iff]; push_cast; norm_num]
  rw [show ((2:ℤ) - 1).toNat = 1 by rfl]
  rw [show List.range 1 = [0] from rfl]
  simp only [List.map]
  norm_num

theorem c4_xs : scanPositions (0 : ℝ) 400 215 = [] := by
  unfold scanPositions scanCount
  rw [if_pos (by norm_num : (0:ℝ) < 215)]
  rw [show ((400:ℝ) - 215 - 0) / 215 = 37/43 by norm_num]
  rw [show ⌈(37/43 : ℝ)⌉ = 1 by rw [Int.ceil_eq_iff]; push_cast; norm_num]
  rw [show ((1:ℤ) - 1).toNat = 0 by rfl]
  rfl

theorem c4_main_clip :
    rectClipLine [((-10 : ℝ), 112), (410, 112)] c4Rect
      = .line [(0, 112), (400, 112)] := by
  unfold rectClipLine c4Rect
  norm_num [min_def, max_def]

/-- On the 400×300 boundary with default parameters the grid strategy emits
exactly one road: the main "Street 1" at northing 112 with width 15 (no
vertical scan position fits). -/
theorem c4_grid_road :
    gridRoadsK rectKernel c4Params c4Rect []
      = [⟨.main, [(0, 112), (400, 112)], 15, "Street 1"⟩] := by
  unfold gridRoadsK gridMainsK
  rw [show (rectKernel (F := ℝ)).bounds c4Rect = c4Rect from rfl]
  rw [show c4Params.max_block_width + c4Params.secondary_road_width = (112:ℝ)
    by unfold c4Params; norm_num]
  rw [show c4Params.max_block_length + c4Params.main_road_width = (215:ℝ)
    by unfold c4Params; norm_num]
  rw [show c4Rect.y0 = (0:ℝ) from rfl, show c4Rect.y1 = (300:ℝ) from rfl,
    show c4Rect.x0 = (0:ℝ) from rfl, show c4Rect.x1 = (400:ℝ) from rfl]
  rw [c4_ys, c4_xs]
  simp only [List.foldl]
  rw [show (0:ℝ) - 10 = -10 by norm_num, show (400:ℝ) + 10 = 410 by norm_num]
  rw [show (rectKernel (F := ℝ)).clipLine = rectClipLine from rfl, c4_main_clip]
  rfl

/-- A complex rectangle `[a,b] ×ℂ [c,d]` is measurable. -/
theorem measurableSet_cRect (a b c d : ℝ) :
    MeasurableSet (Set.Icc a b ×ℂ Set.Icc c d) := by
  have h : Set.Icc a b ×ℂ Set.Icc c d
      = Set.preimage Complex.measurableEquivRealProd (Set.Icc a b ×ˢ Set.Icc c d) := by
    ext z
    simp only [Complex.mem_reProdIm, Set.mem_preimage,
      Complex.measurableEquivRealProd_apply, Set.mem_prod, Set.mem_Icc]
  rw [h]
  exact (measurableSet_Icc.prod measurableSet_Icc).preimage
    Complex.measurableEquivRealProd.measurable

/-- Volume of a complex rectangle. -/
theorem volume_cRect (a b c d : ℝ) :
    MeasureTheory.volume (Set.Icc a b ×ℂ Set.Icc c d)
      = ENNReal.ofReal (b - a) * ENNReal.ofReal (d - c) := by
  have h : Set.Icc a b ×ℂ Set.Icc c d
      = Set.preimage Complex.measurableEquivRealProd (Set.Icc a b ×ˢ Set.Icc c d) := by
    ext z
    simp only [Complex.mem_reProdIm, Set.mem_preimage,
      Complex.measurableEquivRealProd_apply, Set.mem_prod, Set.mem_Icc]
  rw [h, MeasureTheory.MeasurePreserving.measure_preimage_equiv
    Complex.volume_preserving_equiv_real_prod]
  rw [show (MeasureTheory.volume : MeasureTheory.Measure (ℝ × ℝ))
      = (MeasureTheory.volume : MeasureTheory.Measure ℝ).prod MeasureTheory.volume from
    MeasureTheory.Measure.volume_eq_prod ℝ ℝ]
  rw [MeasureTheory.Measure.prod_prod, Real.volume_Icc, Real.volume_Icc]

theorem c4Footprint_measurable : MeasurableSet c4Footprint :=
  Metric.isClosed_cthickening.measurableSet

theorem c4Boundary_measurable : MeasurableSet c4Boundary :=
  measurableSet_cRect 0 400 0 300

/-- The left cap square `[-6,-2] ×ℂ [110,114]`: inside the road footprint and
entirely outside the boundary. -/
def c4Cap : Set ℂ := Set.Icc (-6 : ℝ) (-2) ×ℂ Set.Icc (110 : ℝ) 114

theorem c4Cap_subset_footprint : c4Cap ⊆ c4Footprint := by
  intro z hz
  unfold c4Cap at hz
  rw [Complex.mem_reProdIm] at hz
  obtain ⟨⟨hr1, hr2⟩, hi1, hi2⟩ := hz
  unfold c4Footprint roadFootprint
  rw [polylineCPts_pair]
  refine Metric.mem_cthickening_of_dist_le z (toC (0, 112)) (15/2) _
    (left_mem_segment ℝ _ _) ?_
  rw [Complex.dist_eq, Complex.abs_apply]
  have hre : (z - toC (0, 112)).re = z.re := by
    simp [toC, Complex.sub_re]
  have him : (z - toC (0, 112)).im = z.im - 112 := by
    simp [toC, Complex.sub_im]
  rw [show (15/2 : ℝ) = Real.sqrt (56.25) by
    rw [show (56.25 : ℝ) = (15/2)^2 by norm_num, Real.sqrt_sq (by norm_num)]]
  apply Real.sqrt_le_sqrt
  rw [Complex.normSq_apply, hre, him]
  nlinarith

theorem c4Cap_disjoint_boundary : c4Cap ∩ c4Boundary = ∅ := by
  apply Set.eq_empty_iff_forall_not_mem.mpr
  rintro z ⟨hcap, hbd⟩
  rw [c4Cap, Complex.mem_reProdIm] at hcap
  rw [c4Boundary, Complex.mem_reProdIm] at hbd
  obtain ⟨⟨-, h2⟩, -⟩ := hcap
  obtain ⟨⟨h3, -⟩, -⟩ := hbd
  linarith

/-- The footprint is contained in a bounded rectangle (so its volume is
finite). -/
theorem c4Footprint_subset_box :
    c4Footprint ⊆ Set.Icc (-8 : ℝ) 408 ×ℂ Set.Icc (104 : ℝ) 120 := by
  intro z hz
  unfold c4Footprint roadFootprint at hz
  rw [polylineCPts_pair] at hz
  have hz2 : z ∈ Metric.thickening 8 (segment ℝ (toC (0, 112)) (toC (400, 112))) :=
    Metric.cthickening_subset_thickening' (by norm_num) (by norm_num) _ hz
  rw [Metric.mem_thickening_iff] at hz2
  obtain ⟨y, hyseg, hydist⟩ := hz2
  obtain ⟨a, b, ha, hb, hab, hy⟩ := hyseg
  have hyre : y.re = b * 400 := by
    rw [← hy]
    simp [toC, Complex.real_smul, Complex.add_re, Complex.mul_re]
  have hyim : y.im = 112 := by
    rw [← hy]
    simp [toC, Complex.real_smul, Complex.add_im, Complex.mul_im]
    nlinarith
  have hre : |z.re - y.re| ≤ Complex.abs (z - y) := by
    rw [show z.re - y.re = (z - y).re from by simp [Complex.sub_re]]
    exact Complex.abs_re_le_abs _
  have him : |z.im - y.im| ≤ Complex.abs (z - y) := by
    rw [show z.im - y.im = (z - y).im from by simp [Complex.sub_im]]
    exact Complex.abs_im_le_abs _
  rw [← Complex.dist_eq] at hre him
  have hb400 : 0 ≤ b * 400 ∧ b * 400 ≤ 400 := by constructor <;> nlinarith
  have h1 := abs_lt.mp (lt_of_le_of_lt hre hydist)
  have h2 := abs_lt.mp (lt_of_le_of_lt him hydist)
  rw [Complex.mem_reProdIm]
  simp only [Set.mem_Icc]
  refine ⟨⟨?_, ?_⟩, ?_, ?_⟩ <;>
    nlinarith [hb400.1, hb400.2, h1.1, h1.2, h2.1, h2.2]

theorem c4_volume_boundary :
    MeasureTheory.volume c4Boundary = ENNReal.ofReal 120000 := by
  rw [c4Boundary, volume_cRect]
  rw [show (400:ℝ) - 0 = 400 by norm_num, show (300:ℝ) - 0 = 300 by norm_num,
    ← ENNReal.ofReal_mul (by norm_num : (0:ℝ) ≤ 400)]
  norm_num

theorem c4_volume_cap : MeasureTheory.volume c4Cap = ENNReal.ofReal 16 := by
  rw [c4Cap, volume_cRect]
  rw [show (-2:ℝ) - -6 = 4 by norm_num, show (114:ℝ) - 110 = 4 by norm_num,
    ← ENNReal.ofReal_mul (by norm_num : (0:ℝ) ≤ 4)]
  norm_num

theorem c4_footprint_finite : MeasureTheory.volume c4Footprint ≠ ⊤ := by
  refine ne_top_of_le_ne_top ?_ (MeasureTheory.measure_mono c4Footprint_subset_box)
  rw [volume_cRect]
  exact ENNReal.mul_ne_top ENNReal.ofReal_ne_top ENNReal.ofReal_ne_top

theorem c4_boundary_finite : MeasureTheory.volume c4Boundary ≠ ⊤ := by
  rw [c4_volume_boundary]
  exact ENNReal.ofReal_ne_top

/-- The sum of the block areas and the footprint area exceeds the boundary
area by at least the cap's area of 16. -/
theorem c4_sum_lower :
    (120016 : ℝ) ≤ regionArea (c4Boundary \ c4Footprint) + regionArea c4Footprint := by
  have hBFfin : MeasureTheory.volume (c4Boundary \ c4Footprint) ≠ ⊤ :=
    ne_top_of_le_ne_top c4_boundary_finite (MeasureTheory.measure_mono Set.diff_subset)
  have hcap : MeasureTheory.volume c4Cap
      ≤ MeasureTheory.volume (c4Footprint \ c4Boundary) :=
    MeasureTheory.measure_mono (Set.subset_diff.mpr ⟨c4Cap_subset_footprint,
      Set.disjoint_iff_inter_eq_empty.mpr c4Cap_disjoint_boundary⟩)
  have h1 : MeasureTheory.volume (c4Boundary ∩ c4Footprint)
        + MeasureTheory.volume (c4Boundary \ c4Footprint)
      = MeasureTheory.volume c4Boundary :=
    MeasureTheory.measure_inter_add_diff c4Boundary c4Footprint_measurable
  have h2 : MeasureTheory.volume (c4Footprint ∩ c4Boundary)
        + MeasureTheory.volume (c4Footprint \ c4Boundary)
      = MeasureTheory.volume c4Footprint :=
    MeasureTheory.measure_inter_add_diff c4Footprint c4Boundary_measurable
  have key : MeasureTheory.volume c4Boundary + MeasureTheory.volume c4Cap
      ≤ MeasureTheory.volume (c4Boundary \ c4Footprint)
        + MeasureTheory.volume c4Footprint := by
    calc MeasureTheory.volume c4Boundary + MeasureTheory.volume c4Cap
        ≤ MeasureTheory.volume c4Boundary
            + MeasureTheory.volume (c4Footprint \ c4Boundary) := add_le_add_left hcap _
      _ = (MeasureTheory.volume (c4Boundary ∩ c4Footprint)
            + MeasureTheory.volume (c4Boundary \ c4Footprint))
            + MeasureTheory.volume (c4Footprint \ c4Boundary) := by rw [h1]
      _ = MeasureTheory.volume (c4Boundary \ c4Footprint)
            + (MeasureTheory.volume (c4Footprint ∩ c4Boundary)
            + MeasureTheory.volume (c4Footprint \ c4Boundary)) := by
          rw [Set.inter_comm c4Boundary c4Footprint]
          ring
      _ = MeasureTheory.volume (c4Boundary \ c4Footprint)
            + MeasureTheory.volume c4Footprint := by rw [h2]
  calc (120016 : ℝ)
      = (MeasureTheory.volume c4Boundary + MeasureTheory.volume c4Cap).toReal := by
        rw [c4_volume_boundary, c4_volume_cap,
          ← ENNReal.ofReal_add (by norm_num) (by norm_num)]
        rw [ENNReal.toReal_ofReal (by norm_num)]
        norm_num
    _ ≤ (MeasureTheory.volume (c4Boundary \ c4Footprint)
          + MeasureTheory.volume c4Footprint).toReal :=
        ENNReal.toReal_mono (ENNReal.add_ne_top.mpr ⟨hBFfin, c4_footprint_finite⟩) key
    _ = regionArea (c4Boundary \ c4Footprint) + regionArea c4Footprint :=
        ENNReal.toReal_add hBFfin c4_footprint_finite

/-- Counterexample to claim C4: a real grid run (400×300 boundary, default
parameters, green spaces disabled) emits exactly one road; its footprint's
half-disc caps extend 7.5 units beyond the boundary, so
`Σ block areas + Σ footprint areas + Σ green areas` (the last is 0) exceeds
the boundary area 120000 by at least 16 — far beyond the claimed `1e-6`
relative tolerance of 0.12. -/
theorem c4_counterexample :
    c4Params.include_green_spaces = false ∧
    gridRoadsK rectKernel c4Params c4Rect []
      = [⟨.main, [(0, 112), (400, 112)], 15, "Street 1"⟩] ∧
    regionArea c4Boundary = 120000 ∧
    ¬ (|regionArea (c4Boundary \ c4Footprint) + regionArea c4Footprint + 0
        - regionArea c4Boundary| ≤ 1/1000000 * regionArea c4Boundary) := by
  have hA : regionArea c4Boundary = 120000 := by
    unfold regionArea
    rw [c4_volume_boundary]
    rw [ENNReal.toReal_ofReal (by norm_num)]
  refine ⟨rfl, c4_grid_road, hA, ?_⟩
  intro habs
  rw [hA] at habs
  have h2 := (abs_le.mp habs).2
  have hlow := c4_sum_lower
  linarith

/-- Claim C4, amended: blocks partition the boundary minus the footprint
union, and green spaces are carved out of blocks, so the conserved identity
is `Σ block areas + Σ green areas + area(footprint-union ∩ boundary) =
boundary area`.  The claim's version — with the *un-clipped* footprint areas
— fails because footprints extend beyond the boundary (and may overlap each
other). -/
theorem c4_area_conservation (B U G : Set ℂ) (hU : MeasurableSet U)
    (hG : MeasurableSet G) (hGsub : G ⊆ B \ U)
    (hBfin : MeasureTheory.volume B ≠ ⊤) :
    regionArea ((B \ U) \ G) + regionArea G + regionArea (B ∩ U) = regionArea B := by
  have hGB : G ⊆ B := hGsub.trans Set.diff_subset
  have h1 : MeasureTheory.volume ((B \ U) ∩ G) + MeasureTheory.volume ((B \ U) \ G)
      = MeasureTheory.volume (B \ U) :=
    MeasureTheory.measure_inter_add_diff (B \ U) hG
  rw [Set.inter_eq_right.mpr hGsub] at h1
  have h2 : MeasureTheory.volume (B ∩ U) + MeasureTheory.volume (B \ U)
      = MeasureTheory.volume B :=
    MeasureTheory.measure_inter_add_diff B hU
  have f1 : MeasureTheory.volume ((B \ U) \ G) ≠ ⊤ :=
    ne_top_of_le_ne_top hBfin
      (MeasureTheory.measure_mono (Set.diff_subset.trans Set.diff_subset))
  have f2 : MeasureTheory.volume G ≠ ⊤ :=
    ne_top_of_le_ne_top hBfin (MeasureTheory.measure_mono hGB)
  have f3 : MeasureTheory.volume (B ∩ U) ≠ ⊤ :=
    ne_top_of_le_ne_top hBfin (MeasureTheory.measure_mono Set.inter_subset_left)
  unfold regionArea
  rw [← ENNReal.toReal_add f1 f2,
    ← ENNReal.toReal_add (ENNReal.add_ne_top.mpr ⟨f1, f2⟩) f3]
  congr 1
  calc MeasureTheory.volume ((B \ U) \ G) + MeasureTheory.volume G
        + MeasureTheory.volume (B ∩ U)
      = MeasureTheory.volume (B \ U) + MeasureTheory.volume (B ∩ U) := by
        rw [add_comm (MeasureTheory.volume ((B \ U) \ G)), h1]
    _ = MeasureTheory.volume B := by rw [add_comm, h2]

/-- Witness for the amended C4 at the concrete run (no green spaces). -/
theorem c4_area_conservation_witness :
    regionArea ((c4Boundary \ c4Footprint) \ ∅) + regionArea ∅
      + regionArea (c4Boundary ∩ c4Footprint) = regionArea c4Boundary :=
  c4_area_conservation c4Boundary c4Footprint ∅ c4Footprint_measurable
    MeasurableSet.empty (Set.empty_subset _) c4_boundary_finite

/-!
### The rectangular subdivider agrees with the kernel subdivider

`subdivide_block` (the rectangle-specialised translation proved about for the
exact-tiling and remainder-threshold properties) computes the same parcel
list as `subdivideBlockK` instantiated at the exact rectangle kernel, so both
translations of `_subdivide_block` in this file denote the same function on
rectangular blocks.
-/

theorem rect_subdiv_step (block : Rect F) (m : F) (acc : List (Rect F))
    (cell : Rect F) :
    clipStep rectKernel m block acc cell = acc ++ (clipCell block m cell).toList := by
  have hcr : (rectKernel (F := F)).clipRect cell block =
      (if (rectInter cell block).proper then RectClip.poly (rectInter cell block)
       else if (rectInter cell block).x0 ≤ (rectInter cell block).x1 ∧
           (rectInter cell block).y0 ≤ (rectInter cell block).y1 then
         RectClip.degenerate
       else RectClip.empty) := rfl
  have har : (rectKernel (F := F)).area = Rect.area := rfl
  unfold clipStep
  rw [hcr, har]
  unfold clipCell
  by_cases hp : (rectInter cell block).proper
  · simp only [if_pos hp]
    by_cases ha : m ≤ (rectInter cell block).area + EPS F
    · simp [ha]
    · simp [ha]
  · by_cases hd : (rectInter cell block).x0 ≤ (rectInter cell block).x1 ∧
        (rectInter cell block).y0 ≤ (rectInter cell block).y1
    · simp [hp, hd]
    · simp [hp, hd]

theorem rect_subdiv_fold (block : Rect F) (m : F) :
    ∀ (cells : List (Rect F)) (acc : List (Rect F)),
      cells.foldl (clipStep rectKernel m block) acc
        = acc ++ cells.filterMap (clipCell block m)
  | [], acc => by simp
  | c :: cs, acc => by
    rw [List.foldl_cons, rect_subdiv_step block m acc c,
      rect_subdiv_fold block m cs (acc ++ (clipCell block m c).toList)]
    cases hf : clipCell block m c
    · simp [List.filterMap_cons, hf]
    · simp [List.filterMap_cons, hf]

/-- `_subdivide_block` translated over the geometry kernel coincides, at the
exact rectangle kernel, with the rectangle-specialised translation. -/
theorem subdivideBlockK_rect [FloorRing F] (p : SubdivParams F) (block : Rect F) :
    subdivideBlockK rectKernel p block = subdivide_block p block := by
  have hb : (rectKernel (F := F)).bounds block = block := rfl
  have ha : (rectKernel (F := F)).area block = block.area := rfl
  unfold subdivideBlockK
  rw [hb, ha]
  exact congrArg
    (fun L : List (Rect F) =>
      if L.isEmpty ∧ p.min_parcel_area ≤ block.area then [block] else L)
    ((rect_subdiv_fold block p.min_parcel_area
        (tileCells block.x0 block.y0 (colWidths p block) (rowHeights p block))
        []).trans (List.nil_append _))

/-!
### The primary frontage path, specified

Although `_roads_union = None` makes the scan of lines 614-626 dead code at
run time, the scan itself is correct: when the roads union is present and
some positive-length ring edge touches it, `_find_street_frontage` returns
the two endpoints of a longest touching edge (the first such edge, by the
strict-improvement update).
-/

theorem frontageScan_spec (len : Pt F × Pt F → F) (touches : Pt F × Pt F → Bool) :
    ∀ (es : List (Pt F × Pt F)) (m : F) (best : Option (List (Pt F))),
      (frontageScan len touches es m best = best ∧
        ∀ e ∈ es, touches e = true → len e ≤ m) ∨
      (∃ e ∈ es, touches e = true ∧ m < len e ∧
        frontageScan len touches es m best = some [e.1, e.2] ∧
        ∀ e2 ∈ es, touches e2 = true → len e2 ≤ len e)
  | [], m, best => Or.inl ⟨rfl, by simp⟩
  | e :: rest, m, best => by
    by_cases hc : touches e ∧ m < len e
    · rw [show frontageScan len touches (e :: rest) m best =
          (if touches e = true ∧ m < len e then
            frontageScan len touches rest (len e) (some [e.1, e.2])
          else frontageScan len touches rest m best) from rfl, if_pos hc]
      rcases frontageScan_spec len touches rest (len e) (some [e.1, e.2]) with
        ⟨heq, hb⟩ | ⟨e2, he2, ht2, hlt2, heq2, hb2⟩
      · refine Or.inr ⟨e, List.mem_cons_self e rest, hc.1, hc.2, heq, ?_⟩
        intro e2 hm ht
        rcases List.mem_cons.mp hm with h | h
        · rw [h]
        · exact hb e2 h ht
      · refine Or.inr ⟨e2, List.mem_cons_of_mem e he2, ht2, lt_trans hc.2 hlt2,
          heq2, ?_⟩
        intro e3 he3 ht3
        rcases List.mem_cons.mp he3 with h | h
        · rw [h]; exact le_of_lt hlt2
        · exact hb2 e3 h ht3
    · rw [show frontageScan len touches (e :: rest) m best =
          (if touches e = true ∧ m < len e then
            frontageScan len touches rest (len e) (some [e.1, e.2])
          else frontageScan len touches rest m best) from rfl, if_neg hc]
      rcases frontageScan_spec len touches rest m best with
        ⟨heq, hb⟩ | ⟨e2, he2, ht2, hlt2, heq2, hb2⟩
      · refine Or.inl ⟨heq, ?_⟩
        intro e2 hm ht
        rcases List.mem_cons.mp hm with h | h
        · rw [h] at ht ⊢
          exact le_of_not_lt (fun hlt => hc ⟨ht, hlt⟩)
        · exact hb e2 h ht
      · refine Or.inr ⟨e2, List.mem_cons_of_mem e he2, ht2, hlt2, heq2, ?_⟩
        intro e3 he3 ht3
        rcases List.mem_cons.mp he3 with h | h
        · rw [h] at ht3 ⊢
          exact le_of_lt (lt_of_le_of_lt
            (le_of_not_lt (fun hlt => hc ⟨ht3, hlt⟩)) hlt2)
        · exact hb2 e3 h ht3

/-- When `self._roads_union` is present (which the constructor bug prevents)
and some positive-length edge of the plot ring touches it,
`_find_street_frontage` returns the endpoints of a longest touching edge:
claim C3's primary path, correct in isolation. -/
theorem frontage_longest_touching_edge (len : Pt F × Pt F → F)
    (touches : Pt F × Pt F → Bool) (coords : List (Pt F))
    (h : ∃ e ∈ ringEdges coords, touches e = true ∧ 0 < len e) :
    ∃ e ∈ ringEdges coords, touches e = true ∧
      find_street_frontage len (some touches) coords = [e.1, e.2] ∧
      ∀ e2 ∈ ringEdges coords, touches e2 = true → len e2 ≤ len e := by
  obtain ⟨e0, he0, ht0, hl0⟩ := h
  rcases frontageScan_spec len touches (ringEdges coords) 0 none with
    ⟨heq, hb⟩ | ⟨e, he, ht, hlt, heq, hb⟩
  · exact absurd (hb e0 he0 ht0) (not_le.mpr hl0)
  · refine ⟨e, he, ht, ?_, hb⟩
    unfold find_street_frontage
    dsimp only
    rw [heq]

/-- The primary frontage path on the concrete plot
`(0,0)-(20,0)-(20,25)-(0,25)`: with a roads union touched exactly by the
bottom edge, the frontage is that edge's endpoint pair — the answer the
fallback-only code never produces. -/
theorem frontage_longest_example :
    find_street_frontage (fun e => if e.1.2 = e.2.2 then 20 else 25)
      (some (fun e => decide (e.1.2 = 0 ∧ e.2.2 = 0)))
      [((0 : ℚ), (0 : ℚ)), (20, 0), (20, 25), (0, 25), (0, 0)]
      = [(0, 0), (20, 0)] := by
  unfold find_street_frontage ringEdges
  norm_num [frontageScan, List.zip]

end AutoPlan

